import Mathlib

/-!
Verification of the room/round state machine of the "name that tune" server.

The model is a shallow embedding of the three server modules that hold game
state and logic:

* `src/server/rooms.ts`  — room registry (module-level maps, join/leave, codes,
  grace-period deletion);
* the game engine (`startRound`/`submitAnswer`/`extendDuration`/pending-answer
  table, the version with a winners list and a scoring scheme);
* `src/server/socket.ts` — the event dispatcher, including the delayed
  answer-resolution timer callback.

JavaScript `Map`s become association lists with `Nat` keys (insertion order and
replace-in-place semantics of `Map.set` are preserved by `aset`); socket ids,
session ids and room codes are `Nat`; song ids and titles are `String`.
Timers carry no clock here: an armed `setTimeout` whose handle is still
referenced (a pending answer entry, a scheduled deletion code) is a transition
that may fire; `clearTimeout` is modelled by removing the entry.
-/

namespace NameThatTune

/-! ## Association-list maps (JavaScript `Map` with `Nat` keys) -/

/-- Lookup in an association list (first binding wins, as in a `Map` that never
holds duplicate keys). -/
def alookup (k : Nat) : List (Nat × α) → Option α
  | [] => none
  | (k', v) :: rest => if k' = k then some v else alookup k rest

/-- `Map.set`: replace the first binding of `k` in place, else append. -/
def aset (k : Nat) (v : α) : List (Nat × α) → List (Nat × α)
  | [] => [(k, v)]
  | (k', v') :: rest => if k' = k then (k, v) :: rest else (k', v') :: aset k v rest

/-- `Map.delete`: remove the binding of `k`. -/
def aerase (k : Nat) (l : List (Nat × α)) : List (Nat × α) :=
  l.filter (fun kv => kv.1 != k)

/-- Update the first element satisfying `pr` (JavaScript `find` followed by an
in-place mutation of the found object). -/
def mapFirst (pr : α → Bool) (f : α → α) : List α → List α
  | [] => []
  | x :: rest => if pr x then f x :: rest else x :: mapFirst pr f rest

/-! ## Data model (shared/types plus the runtime shape used by the server) -/

structure Player where
  id : Nat
  nickname : String
  score : Int
  isHost : Bool
  handicapSeconds : Int
deriving DecidableEq

structure Song where
  id : String
  title : String
  artist : String
  artworkUrl : String
  previewUrl : String
deriving DecidableEq

inductive RoomPhase
  | lobby
  | playing
  | paused
  | finished
deriving DecidableEq

structure RoundWinner where
  playerId : Nat
  nickname : String
  points : Int
deriving DecidableEq

structure RoundState where
  roundNumber : Nat
  currentStepIndex : Nat
  song : Option Song
  revealedSong : Option Song
  answered : List (Nat × String)
  winners : List RoundWinner
deriving DecidableEq

structure RoomSettings where
  totalRounds : Nat
  durationSteps : List Int
  scoringScheme : List Int
  playlistId : String
  playlistName : String
deriving DecidableEq

structure RoomState where
  code : Nat
  phase : RoomPhase
  players : List Player
  settings : RoomSettings
  round : Option RoundState
deriving DecidableEq

/-- Entry of the session-keyed `playerState` map of `rooms.ts`. -/
structure SavedPlayerState where
  score : Int
  handicapSeconds : Int
deriving DecidableEq

/-- Entry of the pending-answer table.  The `timerId` handle of the source is
implicit: an entry present in the table is exactly an armed timer. -/
structure PendingAnswer where
  socketId : Nat
  songId : String
  songTitle : String
  roomCode : Nat
  roundNumber : Nat
deriving DecidableEq

/-- All module-level mutable maps of `rooms.ts`, the game engine and the
dispatcher, gathered into one record.  `sessionLog` is a specification-only
history variable: it records the session bound to every socket id at connect
time, is never erased, and is read by no operation. -/
structure ServerState where
  rooms : List (Nat × RoomState)
  socketToRoom : List (Nat × Nat)
  socketToSession : List (Nat × Nat)
  roomNicknames : List (Nat × List (Nat × String))
  nextPlayerNumber : List (Nat × Nat)
  gameParticipants : List (Nat × List Nat)
  roomHostSession : List (Nat × Nat)
  playerState : List (Nat × List (Nat × SavedPlayerState))
  scheduledDeletions : List Nat
  roomSongs : List (Nat × List Song)
  lobbySongs : List (Nat × List Song)
  pendingAnswers : List (Nat × List (Nat × PendingAnswer))
  sessionLog : List (Nat × Nat)
deriving DecidableEq

def initState : ServerState :=
  ⟨[], [], [], [], [], [], [], [], [], [], [], [], []⟩

/-! ## Room registry (`rooms.ts`) -/

/-- `cancelScheduledDeletion`: clear and drop the grace-period timer if armed;
returns whether anything was cancelled. -/
def cancelScheduledDeletion (code : Nat) (s : ServerState) : ServerState × Bool :=
  if code ∈ s.scheduledDeletions then
    ({ s with scheduledDeletions := s.scheduledDeletions.filter (fun c => c != code) }, true)
  else (s, false)

/-- `scheduleDeletion`: always replaces (never stacks) the timer for `code`. -/
def scheduleDeletion (code : Nat) (s : ServerState) : ServerState :=
  let s1 := (cancelScheduledDeletion code s).1
  { s1 with scheduledDeletions := s1.scheduledDeletions ++ [code] }

/-- `generateCode`: `Math.floor(1000 + Math.random() * 9000)` retried until the
code is not a live room's.  Randomness is an explicit stream of draws; the
source's unbounded retry loop is modelled by exhausting the stream. -/
def generateCode (s : ServerState) : List Nat → Option Nat
  | [] => none
  | d :: rest =>
    if alookup (1000 + d % 9000) s.rooms = none then some (1000 + d % 9000)
    else generateCode s rest

def DEFAULT_SETTINGS : RoomSettings :=
  { totalRounds := 0,
    durationSteps := [1, 2, 4, 8, 16],
    scoringScheme := [4, 2, 1],
    playlistId := "",
    playlistName := "" }

def getSavedNickname (code sessionId : Nat) (s : ServerState) : String :=
  (((alookup code s.roomNicknames).bind (alookup sessionId)).getD "")

def saveNickname (code sessionId : Nat) (nickname : String) (s : ServerState) : ServerState :=
  if nickname = "" then s
  else
    let m := aset sessionId nickname ((alookup code s.roomNicknames).getD [])
    { s with roomNicknames := aset code m s.roomNicknames }

def assignNickname (code sessionId : Nat) (s : ServerState) : String × ServerState :=
  let saved := getSavedNickname code sessionId s
  if saved ≠ "" then (saved, s)
  else
    let num := (alookup code s.nextPlayerNumber).getD 1
    ("Player " ++ toString num,
      { s with nextPlayerNumber := aset code (num + 1) s.nextPlayerNumber })

/-- `createRoom`: the creating connection becomes the sole player and host.
Returns `none` only when the draw stream runs out of candidates. -/
def createRoom (draws : List Nat) (hostSocketId sessionId : Nat) (s : ServerState) :
    ServerState × Option RoomState :=
  match generateCode s draws with
  | none => (s, none)
  | some code =>
    let s1 := { s with nextPlayerNumber := aset code 1 s.nextPlayerNumber }
    let ns := assignNickname code sessionId s1
    let room : RoomState :=
      { code := code,
        phase := .lobby,
        players := [{ id := hostSocketId, nickname := ns.1, score := 0, isHost := true,
                      handicapSeconds := 0 }],
        settings := DEFAULT_SETTINGS,
        round := none }
    ({ ns.2 with
        rooms := aset code room ns.2.rooms,
        socketToRoom := aset hostSocketId code ns.2.socketToRoom,
        socketToSession := aset hostSocketId sessionId ns.2.socketToSession,
        roomHostSession := aset code sessionId ns.2.roomHostSession },
      some room)

inductive JoinResult
  | ok (room : RoomState)
  | notFound
  | alreadyInRoom
  | gameInProgress
  | roomFull
deriving DecidableEq

/-- `joinRoom`.  Note the order of checks in the source: the room is fetched,
the scheduled deletion is cancelled, and only then are the `AlreadyInRoom`,
`GameInProgress` and `RoomFull` validations run. -/
def joinRoom (code socketId sessionId : Nat) (s : ServerState) : ServerState × JoinResult :=
  match alookup code s.rooms with
  | none => (s, .notFound)
  | some room =>
    let s1 := (cancelScheduledDeletion code s).1
    if room.players.any (fun p => p.id == socketId) then (s1, .alreadyInRoom)
    else if room.phase ≠ .lobby ∧ ¬ sessionId ∈ (alookup code s1.gameParticipants).getD [] then
      (s1, .gameInProgress)
    else if 20 ≤ room.players.length then (s1, .roomFull)
    else
      let isReturningHost := decide (alookup code s1.roomHostSession = some sessionId)
      let saved := (alookup code s1.playerState).bind (alookup sessionId)
      let ns := assignNickname code sessionId s1
      let newPlayer : Player :=
        { id := socketId,
          nickname := ns.1,
          score := ((saved.map (fun st => st.score)).getD 0),
          isHost := isReturningHost,
          handicapSeconds := ((saved.map (fun st => st.handicapSeconds)).getD 0) }
      let room2 : RoomState :=
        { room with
            players := room.players ++ [newPlayer],
            phase :=
              if isReturningHost && decide (room.phase = RoomPhase.paused) then
                RoomPhase.playing
              else room.phase }
      ({ ns.2 with
          rooms := aset code room2 ns.2.rooms,
          socketToRoom := aset socketId code ns.2.socketToRoom,
          socketToSession := aset socketId sessionId ns.2.socketToSession },
        .ok room2)

/-- `setNickname`: nickname must be unique among current players. -/
def setNickname (code socketId : Nat) (nickname : String) (s : ServerState) :
    ServerState × Except String RoomState :=
  match alookup code s.rooms with
  | none => (s, .error "Room not found")
  | some room =>
    match room.players.find? (fun p => p.id == socketId) with
    | none => (s, .error "Not in room")
    | some _ =>
      if room.players.any (fun p => p.id != socketId && p.nickname == nickname) then
        (s, .error "Nickname already taken")
      else
        let players2 :=
          mapFirst (fun p => p.id == socketId) (fun p => { p with nickname := nickname })
            room.players
        let room2 : RoomState := { room with players := players2 }
        let s1 := { s with rooms := aset code room2 s.rooms }
        let s2 :=
          match alookup socketId s1.socketToSession with
          | some sessionId => saveNickname code sessionId nickname s1
          | none => s1
        (s2, .ok room2)

def deleteRoom (code : Nat) (s : ServerState) : ServerState :=
  let s1 := (cancelScheduledDeletion code s).1
  { s1 with
      rooms := aerase code s1.rooms,
      roomNicknames := aerase code s1.roomNicknames,
      nextPlayerNumber := aerase code s1.nextPlayerNumber,
      gameParticipants := aerase code s1.gameParticipants,
      roomHostSession := aerase code s1.roomHostSession,
      playerState := aerase code s1.playerState }

/-- `leaveRoom`.  Persists nickname (and, mid-game, score/handicap) keyed by
session before removing the player; schedules deletion when the room empties or
when the host leaves in `lobby`/`finished`; pauses the game when the host
leaves while `playing`. -/
def leaveRoom (socketId : Nat) (s : ServerState) :
    ServerState × Option (RoomState × Bool × Bool) :=
  match alookup socketId s.socketToRoom with
  | none => (s, none)
  | some code =>
    match alookup code s.rooms with
    | none => (s, none)
    | some room =>
      let player? := room.players.find? (fun p => p.id == socketId)
      let sess? := alookup socketId s.socketToSession
      let s1 :=
        match player?, sess? with
        | some player, some sessionId =>
          let sA := saveNickname code sessionId player.nickname s
          if room.phase ≠ .lobby then
            let saved : SavedPlayerState :=
              { score := player.score, handicapSeconds := player.handicapSeconds }
            let m := aset sessionId saved ((alookup code sA.playerState).getD [])
            { sA with playerState := aset code m sA.playerState }
          else sA
        | _, _ => s
      let s2 := { s1 with
                    socketToRoom := aerase socketId s1.socketToRoom,
                    socketToSession := aerase socketId s1.socketToSession }
      let wasHost := ((player?.map (fun p => p.isHost)).getD false)
      let room2 := { room with players := room.players.filter (fun p => p.id != socketId) }
      if room2.players.isEmpty then
        (scheduleDeletion code { s2 with rooms := aset code room2 s2.rooms }, none)
      else if wasHost then
        if room2.phase = .playing then
          let room3 := { room2 with phase := .paused }
          ({ s2 with rooms := aset code room3 s2.rooms }, some (room3, true, true))
        else
          (scheduleDeletion code { s2 with rooms := aset code room2 s2.rooms },
            some (room2, true, false))
      else ({ s2 with rooms := aset code room2 s2.rooms }, some (room2, wasHost, false))

/-- `saveGameParticipants`: snapshot the sessions of the players present when
the game starts (players whose socket has no session entry are skipped). -/
def saveGameParticipants (code : Nat) (s : ServerState) : ServerState :=
  match alookup code s.rooms with
  | none => s
  | some room =>
    let participants := room.players.filterMap (fun p => alookup p.id s.socketToSession)
    { s with gameParticipants := aset code participants s.gameParticipants }

def isGameParticipant (code sessionId : Nat) (s : ServerState) : Bool :=
  ((alookup code s.gameParticipants).getD []).contains sessionId

def getRoom (code : Nat) (s : ServerState) : Option RoomState :=
  alookup code s.rooms

def getRoomBySocket (socketId : Nat) (s : ServerState) : Option RoomState :=
  (alookup socketId s.socketToRoom).bind (fun code => alookup code s.rooms)

/-- `Partial<RoomSettings>`: only the provided keys are overwritten. -/
structure SettingsPatch where
  totalRounds : Option Nat
  durationSteps : Option (List Int)
  scoringScheme : Option (List Int)
  playlistId : Option String
  playlistName : Option String
deriving DecidableEq

def applySettings (patch : SettingsPatch) (st : RoomSettings) : RoomSettings :=
  { totalRounds := patch.totalRounds.getD st.totalRounds,
    durationSteps := patch.durationSteps.getD st.durationSteps,
    scoringScheme := patch.scoringScheme.getD st.scoringScheme,
    playlistId := patch.playlistId.getD st.playlistId,
    playlistName := patch.playlistName.getD st.playlistName }

def updateSettings (code : Nat) (patch : SettingsPatch) (s : ServerState) :
    ServerState × Option RoomState :=
  match alookup code s.rooms with
  | none => (s, none)
  | some room =>
    let room2 := { room with settings := applySettings patch room.settings }
    ({ s with rooms := aset code room2 s.rooms }, some room2)

def isHost (socketId : Nat) (room : RoomState) : Bool :=
  room.players.any (fun p => p.id == socketId && p.isHost)

/-- `setHandicap`: only in `lobby`, seconds must lie in `[0, 30]`. -/
def setHandicap (code socketId : Nat) (seconds : Int) (s : ServerState) :
    ServerState × Except String RoomState :=
  match alookup code s.rooms with
  | none => (s, .error "Room not found")
  | some room =>
    if room.phase ≠ .lobby then (s, .error "Can only change handicap in lobby")
    else
      match room.players.find? (fun p => p.id == socketId) with
      | none => (s, .error "Not in room")
      | some _ =>
        if seconds < 0 ∨ 30 < seconds then
          (s, .error "Handicap must be between 0 and 30 seconds")
        else
          let players2 :=
            mapFirst (fun p => p.id == socketId)
              (fun p => { p with handicapSeconds := seconds }) room.players
          let room2 : RoomState := { room with players := players2 }
          ({ s with rooms := aset code room2 s.rooms }, .ok room2)

/-! ## Game engine and pending-answer scheduler (the `game` module) -/

def setLobbySongs (roomCode : Nat) (songs : List Song) (s : ServerState) : ServerState :=
  { s with lobbySongs := aset roomCode songs s.lobbySongs }

def getLobbySongs (roomCode : Nat) (s : ServerState) : Option (List Song) :=
  alookup roomCode s.lobbySongs

/-- `cancelPendingAnswer`: clear the timer and drop the entry if present. -/
def cancelPendingAnswer (roomCode socketId : Nat) (s : ServerState) : ServerState × Bool :=
  match alookup roomCode s.pendingAnswers with
  | none => (s, false)
  | some roomPending =>
    match alookup socketId roomPending with
    | none => (s, false)
    | some _ =>
      let rp2 := aerase socketId roomPending
      if rp2.isEmpty then ({ s with pendingAnswers := aerase roomCode s.pendingAnswers }, true)
      else ({ s with pendingAnswers := aset roomCode rp2 s.pendingAnswers }, true)

/-- `addPendingAnswer`: supersedes (cancels) any pending answer from the same
player before registering the new one. -/
def addPendingAnswer (roomCode socketId : Nat) (pending : PendingAnswer) (s : ServerState) :
    ServerState :=
  let s1 := (cancelPendingAnswer roomCode socketId s).1
  let rp := (alookup roomCode s1.pendingAnswers).getD []
  { s1 with pendingAnswers := aset roomCode (aset socketId pending rp) s1.pendingAnswers }

/-- `cancelAllPendingAnswers`: clears every player's timer for the room and
returns the cancelled socket ids. -/
def cancelAllPendingAnswers (roomCode : Nat) (s : ServerState) : ServerState × List Nat :=
  match alookup roomCode s.pendingAnswers with
  | none => (s, [])
  | some roomPending =>
    ({ s with pendingAnswers := aerase roomCode s.pendingAnswers },
      roomPending.map (fun kv => kv.1))

/-- Result of applying a permutation given as a list of indices (models the
implementation-defined outcome of `sort(() => Math.random() - 0.5)`; the
permutation is an explicit parameter of the reset transition). -/
def applyPerm (perm : List Nat) (l : List α) : List α :=
  if perm.length = l.length ∧ perm.Nodup ∧ ∀ i ∈ perm, i < l.length then
    perm.filterMap (fun i => l.get? i)
  else l

def shuffleAndSetRoomSongs (perm : List Nat) (roomCode : Nat) (s : ServerState) :
    ServerState × Option (List Song) :=
  match alookup roomCode s.lobbySongs with
  | none => (s, none)
  | some songs =>
    if songs.isEmpty then (s, none)
    else
      let shuffled := applyPerm perm songs
      ({ s with roomSongs := aset roomCode shuffled s.roomSongs }, some shuffled)

/-- `startRound`: cancels all outstanding pending answers of the room and
installs a fresh round.  Returns the updated room and the round (the caller
writes the room back, mirroring the in-place mutation of the source). -/
def startRound (room : RoomState) (roundNumber : Nat) (s : ServerState) :
    ServerState × RoomState × RoundState :=
  let s1 := (cancelAllPendingAnswers room.code s).1
  let round : RoundState :=
    { roundNumber := roundNumber,
      currentStepIndex := 0,
      song := none,
      revealedSong := none,
      answered := [],
      winners := [] }
  (s1, { room with round := some round }, round)

/-- `startGame`: phase `playing`, all scores reset to 0, round 1 started.
(The dispatcher passes the song list separately; this version of the engine
does not consume it.) -/
def startGame (room : RoomState) (s : ServerState) : ServerState × RoomState × RoundState :=
  let room1 : RoomState :=
    { room with
        phase := .playing,
        players := room.players.map (fun p => { p with score := 0 }) }
  startRound room1 1 s

def getRoomSongs (roomCode : Nat) (s : ServerState) : Option (List Song) :=
  alookup roomCode s.roomSongs

/-- `getSongForRound`: `songs[(roundNumber - 1) % songs.length]`.  With no song
list, an empty list (`% 0` is `NaN` in JavaScript) or `roundNumber = 0`
(`songs[-1]`), the lookup is `undefined`. -/
def getSongForRound (roomCode roundNumber : Nat) (s : ServerState) : Option Song :=
  match alookup roomCode s.roomSongs with
  | none => none
  | some songs =>
    if songs.isEmpty then none
    else if roundNumber = 0 then none
    else songs.get? ((roundNumber - 1) % songs.length)

inductive RejectReason
  | noRound
  | wrong
  | alreadyScored
  | roundClosed
deriving DecidableEq

inductive AnswerResult
  | rejected (reason : RejectReason)
  | accepted (points : Int) (position : Nat) (allSlotsFilled : Bool)
deriving DecidableEq

/-- `submitAnswer`.  Check order as in the source: no round → round closed
(winner slots exhausted, `min(scheme.length, playerCount)`) → already scored →
record the submitted title → compare against the expected song → on a match,
append the winner at the next rank and add `scheme[rank] ?? 0` to the player's
score.  Returns the updated room (the caller stores it back). -/
def submitAnswer (room : RoomState) (socketId : Nat) (songId songTitle : String)
    (s : ServerState) : RoomState × AnswerResult :=
  match room.round with
  | none => (room, .rejected .noRound)
  | some round =>
    let scheme := room.settings.scoringScheme
    let maxScorers := min scheme.length room.players.length
    if maxScorers ≤ round.winners.length then (room, .rejected .roundClosed)
    else if round.winners.any (fun w => w.playerId == socketId) then
      (room, .rejected .alreadyScored)
    else
      let round1 : RoundState := { round with answered := aset socketId songTitle round.answered }
      let room1 : RoomState := { room with round := some round1 }
      match getSongForRound room.code round.roundNumber s with
      | none => (room1, .rejected .noRound)
      | some correctSong =>
        if songId = correctSong.id then
          let position := round1.winners.length
          let points := scheme.getD position 0
          let nickname := (((room1.players.find? (fun p => p.id == socketId)).map
            (fun p => p.nickname)).getD "")
          let players2 :=
            mapFirst (fun p => p.id == socketId) (fun p => { p with score := p.score + points })
              room1.players
          let round2 : RoundState :=
            { round1 with winners :=
                round1.winners ++ [{ playerId := socketId, nickname := nickname, points := points }] }
          let room2 : RoomState := { room1 with players := players2, round := some round2 }
          let allSlotsFilled := decide (maxScorers ≤ round2.winners.length)
          (room2, .accepted points position allSlotsFilled)
        else (room1, .rejected .wrong)

/-- `extendDuration`: advance the step index when strictly below
`steps.length - 1` (a JavaScript number comparison, so `-1` for an empty step
list); return `steps[index] ?? null` for the resulting index. -/
def extendDuration (room : RoomState) : RoomState × Option Int :=
  match room.round with
  | none => (room, none)
  | some round =>
    let steps := room.settings.durationSteps
    let idx :=
      if (round.currentStepIndex : Int) < (steps.length : Int) - 1 then
        round.currentStepIndex + 1
      else round.currentStepIndex
    ({ room with round := some { round with currentStepIndex := idx } }, steps.get? idx)

def canAdvanceRound (room : RoomState) : Bool :=
  match room.round with
  | none => false
  | some round =>
    if room.settings.totalRounds = 0 then true
    else decide (round.roundNumber < room.settings.totalRounds)

/-- `endGame`: phase `finished`, all pending answers cancelled, per-game song
snapshot discarded; the lobby-selected song list is kept. -/
def endGame (room : RoomState) (s : ServerState) : ServerState × RoomState :=
  let room1 : RoomState := { room with phase := .finished }
  let s1 := (cancelAllPendingAnswers room.code s).1
  ({ s1 with roomSongs := aerase room.code s1.roomSongs }, room1)

/-- `resetToLobby`: phase `lobby`, round cleared, scores reset, pending answers
cancelled, and the previously selected song list re-shuffled and re-staged. -/
def resetToLobby (perm : List Nat) (room : RoomState) (s : ServerState) :
    ServerState × RoomState :=
  let room1 : RoomState :=
    { room with
        phase := .lobby,
        round := none,
        players := room.players.map (fun p => { p with score := 0 }) }
  let s1 := (cancelAllPendingAnswers room.code s).1
  let s2 := (shuffleAndSetRoomSongs perm room.code s1).1
  (s2, room1)

/-! ## Event dispatcher (`socket.ts`) -/

/-- Outbound events.  `...Broadcast`/`Msg` events go to every connection in the
room, `...To`/callback events to a single connection. -/
inductive Event
  | sessionIdMsg (socketId sessionId : Nat)
  | createOk (socketId code : Nat)
  | joinOk (socketId : Nat)
  | joinErr (socketId : Nat) (res : JoinResult)
  | nicknameOk (socketId : Nat)
  | nicknameErr (socketId : Nat) (msg : String)
  | handicapOk (socketId : Nat)
  | handicapErr (socketId : Nat) (msg : String)
  | roomStateMsg (code : Nat) (room : RoomState)
  | lobbySongsBroadcast (code : Nat) (songs : List Song)
  | lobbySongsTo (socketId : Nat) (songs : List Song)
  | gameSongsBroadcast (code : Nat) (songs : List Song)
  | gameSongsTo (socketId : Nat) (songs : List Song)
  | gameRoundBroadcast (code : Nat) (round : RoundState)
  | gameRoundTo (socketId : Nat) (round : RoundState)
  | gameScored (code playerId : Nat) (nickname : String) (points : Int) (position : Nat)
  | gameReveal (code : Nat) (song : Option Song) (winners : List RoundWinner)
  | gameFinished (code : Nat) (players : List Player)
  | gameExtended (code currentStepIndex : Nat)
  | gamePlaySong (code songIndex : Nat) (duration : Int)
  | wrongAnswer (socketId : Nat) (songTitle : String)
deriving DecidableEq

/-- The `connection` handler: bind the (fresh) socket to its session.  The
freshness guard models that the transport never reuses a socket id; the
specification-only `sessionLog` records the binding forever. -/
def onConnect (socketId sessionId : Nat) (s : ServerState) : ServerState × List Event :=
  if (alookup socketId s.sessionLog).isSome then (s, [])
  else
    ({ s with
        socketToSession := aset socketId sessionId s.socketToSession,
        sessionLog := s.sessionLog ++ [(socketId, sessionId)] },
      [.sessionIdMsg socketId sessionId])

/-- The `room:create` handler: the source uses the `sessionId` captured by the
connection handler's closure, which outlives any `leaveRoom` — modelled by the
connect-time `sessionLog` binding (the `none` branch is a socket that never
connected, i.e. no handler exists). -/
def onRoomCreate (socketId : Nat) (draws : List Nat) (s : ServerState) :
    ServerState × List Event :=
  match alookup socketId s.sessionLog with
  | none => (s, [])
  | some sessionId =>
    match createRoom draws socketId sessionId s with
    | (s1, some room) => (s1, [.createOk socketId room.code, .roomStateMsg room.code room])
    | (s1, none) => (s1, [])

/-- The `room:join` handler: like `room:create`, the session is the
connection closure's connect-time `sessionId`, modelled by `sessionLog`. -/
def onRoomJoin (socketId code : Nat) (s : ServerState) : ServerState × List Event :=
  match alookup socketId s.sessionLog with
  | none => (s, [])
  | some sessionId =>
    match joinRoom code socketId sessionId s with
    | (s1, .ok room) =>
      let base := [.joinOk socketId, .roomStateMsg room.code room]
      let lobbyExtra :=
        if room.phase = RoomPhase.lobby then
          match getLobbySongs room.code s1 with
          | some songs => [Event.lobbySongsTo socketId songs]
          | none => []
        else []
      let playingExtra :=
        match room.round with
        | some round =>
          if room.phase = RoomPhase.playing then
            (match getRoomSongs room.code s1 with
             | some songs => [Event.gameSongsTo socketId songs]
             | none => []) ++ [Event.gameRoundTo socketId round]
          else []
        | none => []
      (s1, base ++ lobbyExtra ++ playingExtra)
    | (s1, res) => (s1, [.joinErr socketId res])

def onRoomLeave (socketId : Nat) (s : ServerState) : ServerState × List Event :=
  match leaveRoom socketId s with
  | (s1, some (room, _, _)) => (s1, [.roomStateMsg room.code room])
  | (s1, none) => (s1, [])

def onRoomNickname (socketId : Nat) (nickname : String) (s : ServerState) :
    ServerState × List Event :=
  match getRoomBySocket socketId s with
  | none => (s, [.nicknameErr socketId "Not in a room"])
  | some room =>
    if nickname.trim = "" then (s, [.nicknameErr socketId "Nickname is required"])
    else
      match setNickname room.code socketId nickname.trim s with
      | (s1, .ok room2) => (s1, [.nicknameOk socketId, .roomStateMsg room2.code room2])
      | (s1, .error msg) => (s1, [.nicknameErr socketId msg])

def onRoomHandicap (socketId : Nat) (seconds : Int) (s : ServerState) :
    ServerState × List Event :=
  match getRoomBySocket socketId s with
  | none => (s, [.handicapErr socketId "Not in a room"])
  | some room =>
    match setHandicap room.code socketId seconds s with
    | (s1, .ok room2) => (s1, [.handicapOk socketId, .roomStateMsg room2.code room2])
    | (s1, .error msg) => (s1, [.handicapErr socketId msg])

def onLobbySongs (socketId : Nat) (songs : List Song) (s : ServerState) :
    ServerState × List Event :=
  match getRoomBySocket socketId s with
  | none => (s, [])
  | some room =>
    if isHost socketId room = false then (s, [])
    else if room.phase ≠ RoomPhase.lobby then (s, [])
    else (setLobbySongs room.code songs s, [.lobbySongsBroadcast room.code songs])

def onRoomSettings (socketId : Nat) (patch : SettingsPatch) (s : ServerState) :
    ServerState × List Event :=
  match getRoomBySocket socketId s with
  | none => (s, [])
  | some room =>
    if isHost socketId room = false then (s, [])
    else
      match updateSettings room.code patch s with
      | (s1, some room2) => (s1, [.roomStateMsg room2.code room2])
      | (s1, none) => (s1, [])

def onGameStart (socketId : Nat) (songs : List Song) (s : ServerState) :
    ServerState × List Event :=
  match alookup socketId s.socketToRoom with
  | none => (s, [])
  | some code =>
    match alookup code s.rooms with
    | none => (s, [])
    | some room =>
      if isHost socketId room = false then (s, [])
      else
        let s1 := saveGameParticipants room.code s
        match startGame room s1 with
        | (s2, room2, round) =>
          ({ s2 with rooms := aset code room2 s2.rooms },
            [.gameSongsBroadcast room.code songs, .roomStateMsg room.code room2,
              .gameRoundBroadcast room.code round])

def onGamePlay (socketId : Nat) (s : ServerState) : ServerState × List Event :=
  match getRoomBySocket socketId s with
  | none => (s, [])
  | some room =>
    if isHost socketId room = false then (s, [])
    else
      match room.round with
      | none => (s, [])
      | some round =>
        match getSongForRound room.code round.roundNumber s with
        | none => (s, [])
        | some _ =>
          let duration := room.settings.durationSteps.getD round.currentStepIndex 1
          (s, [.gamePlaySong room.code (round.roundNumber - 1) duration])

/-- The `game:answer` handler: validate room/round/player, then register a
pending answer whose delayed resolution closes over the room code and round
number observed now.  Nothing is emitted at submission time. -/
def onGameAnswer (socketId : Nat) (songId songTitle : String) (s : ServerState) :
    ServerState × List Event :=
  match alookup socketId s.socketToRoom with
  | none => (s, [])
  | some code =>
    match alookup code s.rooms with
    | none => (s, [])
    | some room =>
      match room.round with
      | none => (s, [])
      | some round =>
        match room.players.find? (fun p => p.id == socketId) with
        | none => (s, [])
        | some _ =>
          let pending : PendingAnswer :=
            { socketId := socketId,
              songId := songId,
              songTitle := songTitle,
              roomCode := room.code,
              roundNumber := round.roundNumber }
          (addPendingAnswer room.code socketId pending s, [])

/-- The delayed resolution callback of `game:answer` (fires when the handicap
timer elapses).  It drops its own pending entry, re-fetches the room the
submitting socket currently belongs to, and applies the answer only when that
room still has a round with the recorded round number. -/
def answerTimerCallback (roomCode socketId : Nat) (songId songTitle : String)
    (roundNumber : Nat) (s : ServerState) : ServerState × List Event :=
  let s1 := (cancelPendingAnswer roomCode socketId s).1
  match alookup socketId s1.socketToRoom with
  | none => (s1, [])
  | some currentCode =>
    match alookup currentCode s1.rooms with
    | none => (s1, [])
    | some currentRoom =>
      match currentRoom.round with
      | none => (s1, [])
      | some round =>
        if round.roundNumber ≠ roundNumber then (s1, [])
        else
          match submitAnswer currentRoom socketId songId songTitle s1 with
          | (room2, .accepted points position allSlotsFilled) =>
            let nickname := (((room2.players.find? (fun p => p.id == socketId)).map
              (fun p => p.nickname)).getD "")
            let s2 := { s1 with rooms := aset currentCode room2 s1.rooms }
            let evs := [Event.gameScored currentRoom.code socketId nickname points position,
                        Event.roomStateMsg currentRoom.code room2]
            if allSlotsFilled then
              let s3 := (cancelAllPendingAnswers currentRoom.code s2).1
              let song := getSongForRound currentRoom.code round.roundNumber s3
              (s3, evs ++ [Event.gameReveal currentRoom.code song
                ((room2.round.map (fun r => r.winners)).getD [])])
            else (s2, evs)
          | (room2, .rejected reason) =>
            let s2 := { s1 with rooms := aset currentCode room2 s1.rooms }
            if reason = RejectReason.wrong then (s2, [.wrongAnswer socketId songTitle])
            else (s2, [])

def onGameExtend (socketId : Nat) (s : ServerState) : ServerState × List Event :=
  match alookup socketId s.socketToRoom with
  | none => (s, [])
  | some code =>
    match alookup code s.rooms with
    | none => (s, [])
    | some room =>
      if isHost socketId room = false then (s, [])
      else
        match room.round with
        | none => (s, [])
        | some _ =>
          let r := extendDuration room
          let s1 := { s with rooms := aset code r.1 s.rooms }
          match r.2 with
          | some _ =>
            (s1, [.gameExtended room.code
              ((r.1.round.map (fun rd => rd.currentStepIndex)).getD 0)])
          | none => (s1, [])

def onGameCloseAnswers (socketId : Nat) (s : ServerState) : ServerState × List Event :=
  match getRoomBySocket socketId s with
  | none => (s, [])
  | some room =>
    if isHost socketId room = false then (s, [])
    else
      match room.round with
      | none => (s, [])
      | some round =>
        match getSongForRound room.code round.roundNumber
            ((cancelAllPendingAnswers room.code s).1) with
        | some song =>
          ((cancelAllPendingAnswers room.code s).1,
            [.gameReveal room.code (some song) round.winners])
        | none => ((cancelAllPendingAnswers room.code s).1, [])

def onGameNext (socketId : Nat) (s : ServerState) : ServerState × List Event :=
  match alookup socketId s.socketToRoom with
  | none => (s, [])
  | some code =>
    match alookup code s.rooms with
    | none => (s, [])
    | some room =>
      if isHost socketId room = false then (s, [])
      else
        match room.round with
        | none => (s, [])
        | some round =>
          if canAdvanceRound room then
            match startRound room (round.roundNumber + 1) s with
            | (s1, room2, round2) =>
              ({ s1 with rooms := aset code room2 s1.rooms },
                [.gameRoundBroadcast room.code round2])
          else
            match endGame room s with
            | (s1, room2) =>
              ({ s1 with rooms := aset code room2 s1.rooms },
                [.gameFinished room.code room2.players, .roomStateMsg room.code room2])

def onGameEnd (socketId : Nat) (s : ServerState) : ServerState × List Event :=
  match alookup socketId s.socketToRoom with
  | none => (s, [])
  | some code =>
    match alookup code s.rooms with
    | none => (s, [])
    | some room =>
      if isHost socketId room = false then (s, [])
      else
        match endGame room s with
        | (s1, room2) =>
          ({ s1 with rooms := aset code room2 s1.rooms },
            [.gameFinished room.code room2.players, .roomStateMsg room.code room2])

def onBackToLobby (socketId : Nat) (perm : List Nat) (s : ServerState) :
    ServerState × List Event :=
  match alookup socketId s.socketToRoom with
  | none => (s, [])
  | some code =>
    match alookup code s.rooms with
    | none => (s, [])
    | some room =>
      if isHost socketId room = false then (s, [])
      else
        match resetToLobby perm room s with
        | (s1, room2) =>
          ({ s1 with rooms := aset code room2 s1.rooms }, [.roomStateMsg room.code room2])

def onDisconnect (socketId : Nat) (s : ServerState) : ServerState × List Event :=
  let s1 :=
    match getRoomBySocket socketId s with
    | some room => (cancelPendingAnswer room.code socketId s).1
    | none => s
  match leaveRoom socketId s1 with
  | (s2, some (room, _, _)) => (s2, [.roomStateMsg room.code room])
  | (s2, none) => (s2, [])

/-- The grace-period deletion timer body: drop the handle and delete the room
(no deletion callback is ever registered by the server entry point). -/
def onDeletionExpired (code : Nat) (s : ServerState) : ServerState × List Event :=
  if code ∈ s.scheduledDeletions then
    (deleteRoom code { s with scheduledDeletions := s.scheduledDeletions.filter (fun c => c != code) }, [])
  else (s, [])

/-- The pending-answer timer body: runs the resolution callback with the data
captured at submission time; fires only while its entry is still registered
(`clearTimeout` removes the entry). -/
def onPendingFire (roomCode socketId : Nat) (s : ServerState) : ServerState × List Event :=
  match (alookup roomCode s.pendingAnswers).bind (alookup socketId) with
  | none => (s, [])
  | some p => answerTimerCallback p.roomCode p.socketId p.songId p.songTitle p.roundNumber s

/-! ## Operations, traces and reachability -/

/-- One atomic turn of the single-threaded event loop: an inbound socket event
or a timer callback. -/
inductive Op
  | connect (socketId sessionId : Nat)
  | roomCreate (socketId : Nat) (draws : List Nat)
  | roomJoin (socketId code : Nat)
  | roomLeave (socketId : Nat)
  | roomNickname (socketId : Nat) (nickname : String)
  | roomHandicap (socketId : Nat) (seconds : Int)
  | lobbySongsSet (socketId : Nat) (songs : List Song)
  | roomSettings (socketId : Nat) (patch : SettingsPatch)
  | gameStart (socketId : Nat) (songs : List Song)
  | gamePlay (socketId : Nat)
  | gameAnswer (socketId : Nat) (songId songTitle : String)
  | gameExtend (socketId : Nat)
  | gameCloseAnswers (socketId : Nat)
  | gameNext (socketId : Nat)
  | gameEnd (socketId : Nat)
  | backToLobby (socketId : Nat) (perm : List Nat)
  | disconnect (socketId : Nat)
  | pendingFire (roomCode socketId : Nat)
  | deletionFire (code : Nat)

def step (op : Op) (s : ServerState) : ServerState × List Event :=
  match op with
  | .connect socketId sessionId => onConnect socketId sessionId s
  | .roomCreate socketId draws => onRoomCreate socketId draws s
  | .roomJoin socketId code => onRoomJoin socketId code s
  | .roomLeave socketId => onRoomLeave socketId s
  | .roomNickname socketId nickname => onRoomNickname socketId nickname s
  | .roomHandicap socketId seconds => onRoomHandicap socketId seconds s
  | .lobbySongsSet socketId songs => onLobbySongs socketId songs s
  | .roomSettings socketId patch => onRoomSettings socketId patch s
  | .gameStart socketId songs => onGameStart socketId songs s
  | .gamePlay socketId => onGamePlay socketId s
  | .gameAnswer socketId songId songTitle => onGameAnswer socketId songId songTitle s
  | .gameExtend socketId => onGameExtend socketId s
  | .gameCloseAnswers socketId => onGameCloseAnswers socketId s
  | .gameNext socketId => onGameNext socketId s
  | .gameEnd socketId => onGameEnd socketId s
  | .backToLobby socketId perm => onBackToLobby socketId perm s
  | .disconnect socketId => onDisconnect socketId s
  | .pendingFire roomCode socketId => onPendingFire roomCode socketId s
  | .deletionFire code => onDeletionExpired code s

def runOps (l : List Op) (s : ServerState) : ServerState :=
  l.foldl (fun st op => (step op st).1) s

/-- States reachable from the empty server by a sequence of events/timers. -/
def Reachable (s : ServerState) : Prop :=
  ∃ l : List Op, runOps l initState = s

/-! ## Well-formedness invariants of the registry -/

def akeys (l : List (Nat × α)) : List Nat := l.map Prod.fst

/-- Live rooms are keyed by their own code, codes are pairwise distinct (the
`rooms` map cannot hold two entries with one key) and lie in `[1000, 9999]`. -/
def RoomsWF (s : ServerState) : Prop :=
  (akeys s.rooms).Nodup ∧ ∀ cr ∈ s.rooms, (cr.2 : RoomState).code = cr.1 ∧
    1000 ≤ cr.1 ∧ cr.1 < 10000

/-- Every live room records a host session, and a player carries the host flag
exactly when the session bound to their socket at connect time is that
recorded host session. -/
def HostWF (s : ServerState) : Prop :=
  ∀ cr ∈ s.rooms, ∃ hs, alookup cr.1 s.roomHostSession = some hs ∧
    ∀ p ∈ (cr.2 : RoomState).players, ∃ ps, alookup p.id s.sessionLog = some ps ∧
      (p.isHost = true ↔ ps = hs)

/-- The live socket→session map agrees with the connect-time log. -/
def SessionWF (s : ServerState) : Prop :=
  ∀ kv ∈ s.socketToSession, alookup (kv : Nat × Nat).1 s.sessionLog = some kv.2

def Inv (s : ServerState) : Prop := RoomsWF s ∧ HostWF s ∧ SessionWF s

/-- Room updates that keep the code and only rearrange/update players without
touching id or host flag. -/
def PlayersSim (old new : List Player) : Prop :=
  ∀ p ∈ new, ∃ q ∈ old, p.id = q.id ∧ p.isHost = q.isHost

/-! ## Concrete fixtures used by witnesses and counterexamples -/

def songA : Song :=
  { id := "a", title := "A", artist := "Artist", artworkUrl := "", previewUrl := "" }

def exPlayer (i : Nat) : Player :=
  { id := i, nickname := "P" ++ toString i, score := 0, isHost := decide (i = 0),
    handicapSeconds := 0 }

def exRound : RoundState :=
  { roundNumber := 1, currentStepIndex := 0, song := none, revealedSong := none,
    answered := [], winners := [] }

def exRoom : RoomState :=
  { code := 1000, phase := .playing, players := [exPlayer 0, exPlayer 1, exPlayer 2],
    settings := DEFAULT_SETTINGS, round := some exRound }

def exState : ServerState :=
  { initState with
      rooms := [(1000, exRoom)],
      roomSongs := [(1000, [songA])],
      socketToRoom := [(0, 1000), (1, 1000), (2, 1000)],
      socketToSession := [(0, 100), (1, 101), (2, 102)],
      gameParticipants := [(1000, [100, 101, 102])],
      roomHostSession := [(1000, 100)],
      sessionLog := [(0, 100), (1, 101), (2, 102)] }

def exRoundWon : RoundState :=
  { exRound with winners := [{ playerId := 0, nickname := "P0", points := 4 }] }

def exRoomWon : RoomState := { exRoom with round := some exRoundWon }

def roomAtFinalStep : RoomState :=
  { exRoom with round := some { exRound with currentStepIndex := 4 } }

/-- A state holding one pending answer whose submitting socket is in no room. -/
def staleState : ServerState :=
  { initState with pendingAnswers :=
      [(1000, [(5, { socketId := 5, songId := "a", songTitle := "T", roomCode := 1000,
                     roundNumber := 1 })])] }

/-- Host creates a room, a second player joins, the host leaves while the phase
is `lobby`. -/
def trC3 : List Op :=
  [.connect 0 100, .roomCreate 0 [0], .connect 1 101, .roomJoin 1 1000, .roomLeave 0]

def stateC3 : ServerState := runOps trC3 initState

/-- Host creates a room and nothing else happens: the minimal state with a
live, well-formed room. -/
def trC3w : List Op := [.connect 0 100, .roomCreate 0 [0]]

def stateC3w : ServerState := runOps trC3w initState

/-- The room produced by `trC3w` (code 1000, sole player socket 0 as host). -/
def roomC3w : RoomState :=
  { code := 1000,
    phase := .lobby,
    players := [{ id := 0, nickname := "Player 1", score := 0, isHost := true,
                  handicapSeconds := 0 }],
    settings := DEFAULT_SETTINGS,
    round := none }

/-- Host creates a room and immediately ends the (never started) game, leaving
a `finished` room whose sole player was never recorded as a participant. -/
def trC6 : List Op := [.connect 0 100, .roomCreate 0 [0], .gameEnd 0]

def stateC6 : ServerState := runOps trC6 initState

def pC8host : Player :=
  { id := 1, nickname := "H", score := 7, isHost := true, handicapSeconds := 3 }

def pC8other : Player :=
  { id := 2, nickname := "O", score := 2, isHost := false, handicapSeconds := 0 }

def roomC8 : RoomState :=
  { code := 1000, phase := .playing, players := [pC8host, pC8other],
    settings := DEFAULT_SETTINGS, round := some exRound }

def sC8 : ServerState :=
  { initState with
      rooms := [(1000, roomC8)],
      socketToRoom := [(1, 1000), (2, 1000)],
      socketToSession := [(1, 101), (2, 102)],
      gameParticipants := [(1000, [101, 102])],
      roomHostSession := [(1000, 101)],
      sessionLog := [(1, 101), (2, 102)] }

def sC10 : ServerState := { exState with scheduledDeletions := [1000] }

/-! ## Lemmas on the association-list primitives -/

theorem alookup_mem {k : Nat} {v : α} : ∀ {l : List (Nat × α)}, alookup k l = some v → (k, v) ∈ l := by
  intro l
  induction l with
  | nil => intro h; simp [alookup] at h
  | cons kv rest ih =>
    intro h
    rcases kv with ⟨k', v'⟩
    by_cases hk : k' = k
    · subst hk
      simp [alookup] at h
      simp [h]
    · rw [alookup, if_neg hk] at h
      exact List.mem_cons_of_mem _ (ih h)

theorem alookup_eq_none {k : Nat} {l : List (Nat × α)} :
    alookup k l = none ↔ ∀ kv ∈ l, (kv : Nat × α).1 ≠ k := by
  induction l with
  | nil => simp [alookup]
  | cons kv rest ih =>
    rcases kv with ⟨k', v'⟩
    by_cases hk : k' = k
    · subst hk; simp [alookup]
    · rw [alookup, if_neg hk]
      simp only [List.mem_cons, ih]
      constructor
      · rintro h kv (rfl | hm)
        · exact hk
        · exact h kv hm
      · intro h kv hm; exact h kv (Or.inr hm)

theorem alookup_aset_self (k : Nat) (v : α) (l : List (Nat × α)) :
    alookup k (aset k v l) = some v := by
  induction l with
  | nil => simp [aset, alookup]
  | cons kv rest ih =>
    rcases kv with ⟨k', v'⟩
    by_cases hk : k' = k
    · simp [aset, hk, alookup]
    · simp [aset, hk, alookup, ih]

theorem alookup_aset_ne {k' k : Nat} (v : α) (l : List (Nat × α)) (h : k' ≠ k) :
    alookup k' (aset k v l) = alookup k' l := by
  induction l with
  | nil =>
    show alookup k' [(k, v)] = none
    rw [alookup, if_neg (Ne.symm h)]
    rfl
  | cons kv rest ih =>
    rcases kv with ⟨k'', v''⟩
    by_cases hk : k'' = k
    · subst hk
      rw [aset, if_pos rfl, alookup, alookup, if_neg (Ne.symm h), if_neg (Ne.symm h)]
    · rw [aset, if_neg hk, alookup, alookup]
      by_cases hk2 : k'' = k'
      · rw [if_pos hk2, if_pos hk2]
      · rw [if_neg hk2, if_neg hk2, ih]

theorem mem_aset {x : Nat × α} {k : Nat} {v : α} :
    ∀ {l : List (Nat × α)}, x ∈ aset k v l → x = (k, v) ∨ x ∈ l := by
  intro l
  induction l with
  | nil => intro h; simp [aset] at h; exact Or.inl h
  | cons kv rest ih =>
    intro h
    rcases kv with ⟨k', v'⟩
    by_cases hk : k' = k
    · rw [aset, if_pos hk] at h
      rcases List.mem_cons.mp h with h1 | h1
      · exact Or.inl h1
      · exact Or.inr (List.mem_cons_of_mem _ h1)
    · rw [aset, if_neg hk] at h
      rcases List.mem_cons.mp h with h1 | h1
      · exact Or.inr (by simp [h1])
      · rcases ih h1 with h2 | h2
        · exact Or.inl h2
        · exact Or.inr (List.mem_cons_of_mem _ h2)

theorem aset_eq_self {k : Nat} {v : α} :
    ∀ {l : List (Nat × α)}, alookup k l = some v → aset k v l = l := by
  intro l
  induction l with
  | nil => intro h; simp [alookup] at h
  | cons kv rest ih =>
    intro h
    rcases kv with ⟨k', v'⟩
    by_cases hk : k' = k
    · subst hk
      rw [alookup, if_pos rfl] at h
      obtain rfl : v' = v := by injection h
      rw [aset, if_pos rfl]
    · rw [alookup, if_neg hk] at h
      rw [aset, if_neg hk, ih h]

theorem mem_akeys_aset {x k : Nat} {v : α} :
    ∀ {l : List (Nat × α)}, x ∈ akeys (aset k v l) → x = k ∨ x ∈ akeys l := by
  intro l
  induction l with
  | nil => intro h; simp [aset, akeys] at h; exact Or.inl h
  | cons kv rest ih =>
    intro h
    rcases kv with ⟨k', v'⟩
    by_cases hk : k' = k
    · rw [aset, if_pos hk] at h
      rcases List.mem_cons.mp h with h1 | h1
      · exact Or.inl h1
      · exact Or.inr (by simp [akeys] at h1 ⊢; exact Or.inr h1)
    · rw [aset, if_neg hk] at h
      rcases List.mem_cons.mp h with h1 | h1
      · exact Or.inr (by simp [akeys, h1])
      · rcases ih h1 with h2 | h2
        · exact Or.inl h2
        · exact Or.inr (by simp [akeys] at h2 ⊢; exact Or.inr h2)

theorem nodup_akeys_aset {k : Nat} {v : α} :
    ∀ {l : List (Nat × α)}, (akeys l).Nodup → (akeys (aset k v l)).Nodup := by
  intro l
  induction l with
  | nil => intro _; simp [aset, akeys]
  | cons kv rest ih =>
    intro h
    rcases kv with ⟨k', v'⟩
    simp only [akeys, List.map_cons, List.nodup_cons] at h
    by_cases hk : k' = k
    · subst hk
      rw [aset, if_pos rfl]
      simpa [akeys, List.nodup_cons] using h
    · rw [aset, if_neg hk]
      simp only [akeys, List.map_cons, List.nodup_cons]
      refine ⟨?_, ih h.2⟩
      intro hmem
      rcases mem_akeys_aset hmem with h1 | h1
      · exact hk h1
      · exact h.1 h1

theorem mem_aerase {x : Nat × α} {k : Nat} {l : List (Nat × α)} :
    x ∈ aerase k l ↔ x ∈ l ∧ x.1 ≠ k := by
  simp [aerase, List.mem_filter]

theorem alookup_aerase_self (k : Nat) (l : List (Nat × α)) :
    alookup k (aerase k l) = none := by
  rw [alookup_eq_none]
  intro kv hm
  exact (mem_aerase.mp hm).2

theorem alookup_aerase_ne {k' k : Nat} (l : List (Nat × α)) (h : k' ≠ k) :
    alookup k' (aerase k l) = alookup k' l := by
  induction l with
  | nil => rfl
  | cons kv rest ih =>
    rcases kv with ⟨k'', v''⟩
    rw [aerase, List.filter_cons]
    by_cases hk : k'' = k
    · subst hk
      rw [if_neg (by simp), alookup, if_neg (Ne.symm h)]
      exact ih
    · rw [if_pos (by simp [hk]), alookup, alookup]
      by_cases hk2 : k'' = k'
      · rw [if_pos hk2, if_pos hk2]
      · rw [if_neg hk2, if_neg hk2]
        exact ih

theorem nodup_akeys_aerase {k : Nat} {l : List (Nat × α)} (h : (akeys l).Nodup) :
    (akeys (aerase k l)).Nodup := by
  have hsub : List.Sublist (akeys (aerase k l)) (akeys l) :=
    List.Sublist.map Prod.fst (List.filter_sublist l)
  exact h.sublist hsub

theorem alookup_append_some {k : Nat} {v : α} {l1 l2 : List (Nat × α)}
    (h : alookup k l1 = some v) : alookup k (l1 ++ l2) = some v := by
  induction l1 with
  | nil => simp [alookup] at h
  | cons kv rest ih =>
    rcases kv with ⟨k', v'⟩
    by_cases hk : k' = k
    · subst hk
      rw [alookup, if_pos rfl] at h
      simpa [alookup] using h
    · rw [alookup, if_neg hk] at h
      simpa [alookup, hk] using ih h

theorem alookup_append_none {k : Nat} {l1 l2 : List (Nat × α)}
    (h : alookup k l1 = none) : alookup k (l1 ++ l2) = alookup k l2 := by
  induction l1 with
  | nil => simp
  | cons kv rest ih =>
    rcases kv with ⟨k', v'⟩
    by_cases hk : k' = k
    · subst hk; rw [alookup, if_pos rfl] at h; cases h
    · rw [alookup, if_neg hk] at h
      simpa [alookup, hk] using ih h

theorem mem_mapFirst {pr : α → Bool} {f : α → α} {x : α} :
    ∀ {l : List α}, x ∈ mapFirst pr f l → x ∈ l ∨ ∃ y ∈ l, x = f y := by
  intro l
  induction l with
  | nil => intro h; simp [mapFirst] at h
  | cons a rest ih =>
    intro h
    by_cases hp : pr a
    · rw [mapFirst, if_pos hp] at h
      rcases List.mem_cons.mp h with h1 | h1
      · exact Or.inr ⟨a, by simp, h1⟩
      · exact Or.inl (List.mem_cons_of_mem _ h1)
    · rw [mapFirst, if_neg hp] at h
      rcases List.mem_cons.mp h with h1 | h1
      · exact Or.inl (by simp [h1])
      · rcases ih h1 with h2 | h2
        · exact Or.inl (List.mem_cons_of_mem _ h2)
        · rcases h2 with ⟨y, hy, he⟩
          exact Or.inr ⟨y, List.mem_cons_of_mem _ hy, he⟩

/-! ## Component lemmas for state-threading helpers -/

theorem cancelPendingAnswer_rooms (c k : Nat) (s : ServerState) :
    ((cancelPendingAnswer c k s).1).rooms = s.rooms := by
  unfold cancelPendingAnswer
  split
  · rfl
  · split
    · rfl
    · dsimp only
      split <;> rfl

theorem cancelPendingAnswer_socketToRoom (c k : Nat) (s : ServerState) :
    ((cancelPendingAnswer c k s).1).socketToRoom = s.socketToRoom := by
  unfold cancelPendingAnswer
  split
  · rfl
  · split
    · rfl
    · dsimp only
      split <;> rfl

theorem assignNickname_fields (c t : Nat) (s : ServerState) :
    ((assignNickname c t s).2).rooms = s.rooms ∧
    ((assignNickname c t s).2).scheduledDeletions = s.scheduledDeletions ∧
    ((assignNickname c t s).2).playerState = s.playerState ∧
    ((assignNickname c t s).2).roomHostSession = s.roomHostSession ∧
    ((assignNickname c t s).2).gameParticipants = s.gameParticipants ∧
    ((assignNickname c t s).2).socketToSession = s.socketToSession ∧
    ((assignNickname c t s).2).socketToRoom = s.socketToRoom ∧
    ((assignNickname c t s).2).sessionLog = s.sessionLog := by
  unfold assignNickname
  dsimp only
  split <;> simp

/-! ## Claim theorems -/

/-- C1: a pending answer's resolution callback, firing with recorded round
number `n`, is a silent no-op whenever the room/round state it re-fetches for
the submitting connection no longer matches: the room is gone, has no current
round, or has a round whose number differs from `n`.  No room (hence no score
and no winner list) changes and no event is emitted; only the pending entry
itself is dropped. -/
theorem claim_C1 (s : ServerState) (roomCode socketId : Nat) (songId songTitle : String)
    (n : Nat)
    (hstale : ∀ room round, getRoomBySocket socketId s = some room →
      room.round = some round → round.roundNumber ≠ n) :
    (answerTimerCallback roomCode socketId songId songTitle n s).1.rooms = s.rooms ∧
    (answerTimerCallback roomCode socketId songId songTitle n s).2 = [] := by
  have hr := cancelPendingAnswer_rooms roomCode socketId s
  have hsr := cancelPendingAnswer_socketToRoom roomCode socketId s
  unfold answerTimerCallback
  set t := (cancelPendingAnswer roomCode socketId s).1 with hT
  cases h1 : alookup socketId t.socketToRoom with
  | none =>
    simp only [h1]
    exact ⟨hr, trivial⟩
  | some code =>
    simp only [h1]
    cases h2 : alookup code t.rooms with
    | none =>
      simp only [h2]
      exact ⟨hr, trivial⟩
    | some room =>
      simp only [h2]
      have h1' : alookup socketId s.socketToRoom = some code := by rw [← hsr]; exact h1
      have h2' : alookup code s.rooms = some room := by rw [← hr]; exact h2
      have hfetch : getRoomBySocket socketId s = some room := by
        simp [getRoomBySocket, h1', h2']
      cases h3 : room.round with
      | none =>
        simp only [h3]
        exact ⟨hr, trivial⟩
      | some round =>
        have hne : round.roundNumber ≠ n := hstale room round hfetch h3
        simp only [h3]
        simp [hne]
        exact hr

/-- C1 witness: a pending answer for socket 5 whose socket is in no room at
fire time resolves to a no-op. -/
theorem claim_C1_witness :
    (answerTimerCallback 1000 5 "a" "T" 1 staleState).1.rooms = staleState.rooms ∧
    (answerTimerCallback 1000 5 "a" "T" 1 staleState).2 = [] :=
  claim_C1 staleState 1000 5 "a" "T" 1
    (by intro room round h1 h2; simp [getRoomBySocket, staleState, initState, alookup] at h1)

/-- C5: a player who already occupies a winner slot of the current round has
every further `submitAnswer` call rejected (as already-scored, or as
round-closed when the slots are exhausted), with the room — winners list and
every player's score included — left unchanged. -/
theorem claim_C5 (s : ServerState) (room : RoomState) (socketId : Nat)
    (songId songTitle : String) (round : RoundState)
    (hround : room.round = some round)
    (hwon : ∃ w ∈ round.winners, (w : RoundWinner).playerId = socketId) :
    ∃ reason, submitAnswer room socketId songId songTitle s = (room, .rejected reason) ∧
      (reason = RejectReason.alreadyScored ∨ reason = RejectReason.roundClosed) := by
  unfold submitAnswer
  rw [hround]
  by_cases hclosed :
      min room.settings.scoringScheme.length room.players.length ≤ round.winners.length
  · exact ⟨.roundClosed, by simp [hclosed], Or.inr rfl⟩
  · have hany : round.winners.any (fun w => w.playerId == socketId) = true := by
      rcases hwon with ⟨w, hw, he⟩
      exact List.any_eq_true.mpr ⟨w, hw, by simp [he]⟩
    exact ⟨.alreadyScored, by simp [hclosed, hany], Or.inl rfl⟩

/-- C5 witness: in a room where player 0 already won the round, a further
correct submission by player 0 is rejected and changes nothing. -/
theorem claim_C5_witness :
    ∃ reason, submitAnswer exRoomWon 0 "a" "T" exState = (exRoomWon, .rejected reason) ∧
      (reason = RejectReason.alreadyScored ∨ reason = RejectReason.roundClosed) :=
  claim_C5 exState exRoomWon 0 "a" "T" exRoundWon rfl
    ⟨{ playerId := 0, nickname := "P0", points := 4 }, by simp [exRoundWon, exRound], rfl⟩

/-- C7 (amended): with a current round, `extendDuration` advances the step
index by one and returns the (existing) new step's duration when the index is
not yet at the last step; when the index is at (or beyond) the last step it
leaves the room unchanged and returns `steps[index] ?? null` — at the final
step this is the final step's duration, not null. -/
theorem claim_C7 (room : RoomState) (round : RoundState)
    (hround : room.round = some round) :
    ((round.currentStepIndex : Int) < (room.settings.durationSteps.length : Int) - 1 →
      extendDuration room =
        ({ room with
            round := some { round with currentStepIndex := round.currentStepIndex + 1 } },
          room.settings.durationSteps.get? (round.currentStepIndex + 1)) ∧
      room.settings.durationSteps.get? (round.currentStepIndex + 1) ≠ none) ∧
    (¬ ((round.currentStepIndex : Int) < (room.settings.durationSteps.length : Int) - 1) →
      extendDuration room = (room, room.settings.durationSteps.get? round.currentStepIndex)) := by
  constructor
  · intro hlt
    constructor
    · unfold extendDuration
      rw [hround]
      simp [hlt]
    · intro hnone
      rw [List.get?_eq_none] at hnone
      omega
  · intro hge
    unfold extendDuration
    rw [hround]
    simp only [if_neg hge]
    have h1 : { round with currentStepIndex := round.currentStepIndex } = round := rfl
    rw [h1]
    have h2 : { room with round := some round } = room := by rw [← hround]
    rw [h2]

/-- C7 counterexample: at the final duration step (index 4 of `[1,2,4,8,16]`),
`extendDuration` leaves the index unchanged but returns `some 16` — the
claim's "returns null when already at the final step" is false. -/
theorem claim_C7_counterexample :
    (roomAtFinalStep.round.map (fun r => r.currentStepIndex)) =
      some (roomAtFinalStep.settings.durationSteps.length - 1) ∧
    (extendDuration roomAtFinalStep).1 = roomAtFinalStep ∧
    (extendDuration roomAtFinalStep).2 = some 16 := by
  refine ⟨by decide, by decide, by decide⟩

/-- C7 witness: from step index 0 of the default steps, extending advances to
index 1 and returns its duration 2. -/
theorem claim_C7_witness :
    extendDuration exRoom =
      ({ exRoom with
          round := some { exRound with currentStepIndex := exRound.currentStepIndex + 1 } },
        exRoom.settings.durationSteps.get? (exRound.currentStepIndex + 1)) ∧
    exRoom.settings.durationSteps.get? (exRound.currentStepIndex + 1) = some 2 := by
  have h := (claim_C7 exRoom exRound rfl).1 (by decide)
  exact ⟨h.1, rfl⟩

/-- C10: when the room exists, `joinRoom` cancels its scheduled grace-period
deletion before any validation, so the deletion timer is cleared even when the
call returns an error (and `NotFound` is impossible for an existing room). -/
theorem claim_C10 (s : ServerState) (code socketId sessionId : Nat) (room : RoomState)
    (hroom : alookup code s.rooms = some room) :
    ¬ code ∈ (joinRoom code socketId sessionId s).1.scheduledDeletions ∧
    (joinRoom code socketId sessionId s).2 ≠ .notFound := by
  have hc : ¬ code ∈ ((cancelScheduledDeletion code s).1).scheduledDeletions := by
    unfold cancelScheduledDeletion
    split
    · simp [List.mem_filter]
    · simpa using (by assumption : ¬ code ∈ s.scheduledDeletions)
  unfold joinRoom
  rw [hroom]
  dsimp only
  split
  · exact ⟨hc, by simp⟩
  · split
    · exact ⟨hc, by simp⟩
    · split
      · exact ⟨hc, by simp⟩
      · refine ⟨?_, by simp⟩
        have ha := (assignNickname_fields code sessionId
          ((cancelScheduledDeletion code s).1)).2.1
        simpa [ha] using hc

/-- C10 witness: in a state with a deletion scheduled for room 1000, a join
that fails with `AlreadyInRoom` still clears the schedule. -/
theorem claim_C10_witness :
    (¬ 1000 ∈ (joinRoom 1000 0 100 sC10).1.scheduledDeletions ∧
      (joinRoom 1000 0 100 sC10).2 ≠ .notFound) ∧
    (joinRoom 1000 0 100 sC10).2 = .alreadyInRoom :=
  ⟨claim_C10 sC10 1000 0 100 exRoom (by decide), by decide⟩

theorem cancelScheduledDeletion_fields (c : Nat) (s : ServerState) :
    ((cancelScheduledDeletion c s).1).rooms = s.rooms ∧
    ((cancelScheduledDeletion c s).1).gameParticipants = s.gameParticipants ∧
    ((cancelScheduledDeletion c s).1).playerState = s.playerState ∧
    ((cancelScheduledDeletion c s).1).roomHostSession = s.roomHostSession ∧
    ((cancelScheduledDeletion c s).1).socketToSession = s.socketToSession ∧
    ((cancelScheduledDeletion c s).1).socketToRoom = s.socketToRoom ∧
    ((cancelScheduledDeletion c s).1).roomNicknames = s.roomNicknames ∧
    ((cancelScheduledDeletion c s).1).nextPlayerNumber = s.nextPlayerNumber ∧
    ((cancelScheduledDeletion c s).1).sessionLog = s.sessionLog := by
  unfold cancelScheduledDeletion
  split <;> simp

theorem saveNickname_fields (c t : Nat) (nick : String) (s : ServerState) :
    (saveNickname c t nick s).rooms = s.rooms ∧
    (saveNickname c t nick s).playerState = s.playerState ∧
    (saveNickname c t nick s).roomHostSession = s.roomHostSession ∧
    (saveNickname c t nick s).gameParticipants = s.gameParticipants ∧
    (saveNickname c t nick s).socketToSession = s.socketToSession ∧
    (saveNickname c t nick s).socketToRoom = s.socketToRoom ∧
    (saveNickname c t nick s).sessionLog = s.sessionLog := by
  unfold saveNickname
  split <;> simp

theorem scheduleDeletion_fields (c : Nat) (s : ServerState) :
    (scheduleDeletion c s).rooms = s.rooms ∧
    (scheduleDeletion c s).playerState = s.playerState ∧
    (scheduleDeletion c s).roomHostSession = s.roomHostSession ∧
    (scheduleDeletion c s).gameParticipants = s.gameParticipants ∧
    (scheduleDeletion c s).sessionLog = s.sessionLog := by
  unfold scheduleDeletion
  have h := cancelScheduledDeletion_fields c s
  refine ⟨?_, ?_, ?_, ?_, ?_⟩ <;> simp [h.1, h.2.1, h.2.2.1, h.2.2.2.1, h.2.2.2.2.2.2.2]

theorem getLast?_append_singleton (l : List α) (a : α) : (l ++ [a]).getLast? = some a := by
  induction l with
  | nil => rfl
  | cons b rest ih =>
    rw [List.cons_append, List.getLast?_cons]
    simp [ih]

/-- C2: with a current round, a correct submission by a present player not yet
among the winners and an open winner slot (`i < min(scheme.length,
playerCount)` winners so far) appends that player as the `i`-th winner with
`scheme[i] ?? 0` points, adds those points to the player's score, records the
submitted title, and reports the slots full exactly when the winner count
reaches `min(scheme.length, playerCount)`; once the winner count is at that
bound, every submission is rejected as round-closed. -/
theorem claim_C2 (s : ServerState) (room : RoomState) (socketId : Nat)
    (songTitle : String) (round : RoundState) (song : Song) (p : Player)
    (hround : room.round = some round)
    (hsong : getSongForRound room.code round.roundNumber s = some song)
    (hp : room.players.find? (fun q => q.id == socketId) = some p) :
    (round.winners.length < min room.settings.scoringScheme.length room.players.length →
      (∀ w ∈ round.winners, (w : RoundWinner).playerId ≠ socketId) →
      submitAnswer room socketId song.id songTitle s =
        ({ room with
            players := mapFirst (fun q => q.id == socketId)
              (fun q =>
                { q with score := q.score +
                    room.settings.scoringScheme.getD round.winners.length 0 }) room.players,
            round := some
              { round with
                  answered := aset socketId songTitle round.answered,
                  winners := round.winners ++
                    [{ playerId := socketId, nickname := p.nickname,
                       points := room.settings.scoringScheme.getD round.winners.length 0 }] } },
          .accepted (room.settings.scoringScheme.getD round.winners.length 0)
            round.winners.length
            (decide (round.winners.length + 1 =
              min room.settings.scoringScheme.length room.players.length)))) ∧
    (min room.settings.scoringScheme.length room.players.length ≤ round.winners.length →
      submitAnswer room socketId song.id songTitle s = (room, .rejected .roundClosed)) := by
  constructor
  · intro hlt hfresh
    have hnotclosed :
        ¬ (min room.settings.scoringScheme.length room.players.length ≤
            round.winners.length) := not_le.mpr hlt
    have hanyf : round.winners.any (fun w => w.playerId == socketId) = false := by
      rw [List.any_eq_false]
      intro w hw
      simp [hfresh w hw]
    unfold submitAnswer
    rw [hround]
    dsimp only
    rw [if_neg hnotclosed,
      if_neg (show ¬ (round.winners.any (fun w => w.playerId == socketId) = true) by
        simp [hanyf])]
    split
    · next heq =>
      rw [hsong] at heq
      cases heq
    · next correctSong heq =>
      rw [hsong] at heq
      injection heq with he
      subst he
      rw [if_pos rfl, hp]
      simp only [Option.map_some', Option.getD_some]
      have hful : (decide (min room.settings.scoringScheme.length room.players.length ≤
          (round.winners ++ [({ playerId := socketId, nickname := p.nickname,
                                points := room.settings.scoringScheme.getD round.winners.length
                                  0 } : RoundWinner)]).length) : Bool) =
          decide (round.winners.length + 1 =
            min room.settings.scoringScheme.length room.players.length) := by
        rw [decide_eq_decide]
        rw [List.length_append]
        simp only [List.length_singleton]
        omega
      rw [hful]
  · intro hge
    unfold submitAnswer
    rw [hround]
    dsimp only
    rw [if_pos hge]

/-- C2 witness: in a fresh round of a 3-player room with scheme `[4,2,1]`,
player 0's correct answer takes winner slot 0 for 4 points and does not yet
fill the slots; with the slot bound reached no submission is accepted. -/
theorem claim_C2_witness :
    (submitAnswer exRoom 0 songA.id "T" exState).2 =
      .accepted 4 0 false := by
  have h := (claim_C2 exState exRoom 0 "T" exRound songA (exPlayer 0) rfl rfl rfl).1
    (by decide) (by intro w hw; simp [exRound] at hw)
  rw [h]
  decide

/-- C6 (amended): for a room whose phase is not `lobby`, `joinRoom` succeeds
only for a session recorded as a game participant; a connection already in the
player list fails with `AlreadyInRoom` (this check runs first), and every
other non-participant session fails with `GameInProgress`.  For a `lobby`
room, any session can join; the only failures are `AlreadyInRoom` for a
connection already in the list and `RoomFull` at the 20-player cap. -/
theorem claim_C6 (s : ServerState) (code socketId sessionId : Nat) (room : RoomState)
    (hroom : alookup code s.rooms = some room) :
    ((room.phase ≠ RoomPhase.lobby) →
      ((∀ room2, (joinRoom code socketId sessionId s).2 = .ok room2 →
          sessionId ∈ (alookup code s.gameParticipants).getD []) ∧
        (room.players.any (fun q => q.id == socketId) = true →
          (joinRoom code socketId sessionId s).2 = .alreadyInRoom) ∧
        (room.players.any (fun q => q.id == socketId) = false →
          ¬ sessionId ∈ (alookup code s.gameParticipants).getD [] →
          (joinRoom code socketId sessionId s).2 = .gameInProgress))) ∧
    (room.phase = RoomPhase.lobby →
      (((joinRoom code socketId sessionId s).2 = .alreadyInRoom ↔
          room.players.any (fun q => q.id == socketId) = true) ∧
        ((joinRoom code socketId sessionId s).2 = .roomFull ↔
          (room.players.any (fun q => q.id == socketId) = false ∧
            20 ≤ room.players.length)) ∧
        (room.players.any (fun q => q.id == socketId) = false →
          room.players.length < 20 →
          ∃ room2, (joinRoom code socketId sessionId s).2 = .ok room2))) := by
  have hgp := (cancelScheduledDeletion_fields code s).2.1
  unfold joinRoom
  rw [hroom]
  dsimp only
  rw [hgp]
  by_cases hany : room.players.any (fun q => q.id == socketId) = true
  · rw [if_pos hany]
    constructor
    · intro _
      refine ⟨?_, ?_, ?_⟩
      · intro room2 h
        exact absurd h (by simp)
      · intro _
        rfl
      · intro hf _
        rw [hany] at hf
        cases hf
    · intro _
      refine ⟨?_, ?_, ?_⟩
      · exact ⟨fun _ => hany, fun _ => rfl⟩
      · constructor
        · intro h
          exact absurd h (by simp)
        · rintro ⟨hf, -⟩
          rw [hany] at hf
          cases hf
      · intro hf _
        rw [hany] at hf
        cases hf
  · rw [if_neg hany]
    have hanyf : room.players.any (fun q => q.id == socketId) = false := by
      cases h : room.players.any (fun q => q.id == socketId) with
      | false => rfl
      | true => exact absurd h hany
    constructor
    · intro hphase
      by_cases hpart : sessionId ∈ (alookup code s.gameParticipants).getD []
      · rw [if_neg (by intro hc; exact hc.2 hpart)]
        refine ⟨?_, ?_, ?_⟩
        · intro room2 _
          exact hpart
        · intro hf
          rw [hanyf] at hf
          cases hf
        · intro _ hnp
          exact absurd hpart hnp
      · rw [if_pos ⟨hphase, hpart⟩]
        refine ⟨?_, ?_, ?_⟩
        · intro room2 h
          exact absurd h (by simp)
        · intro hf
          rw [hanyf] at hf
          cases hf
        · intro _ _
          rfl
    · intro hphase
      rw [if_neg (by intro hc; exact hc.1 hphase)]
      by_cases hfull : 20 ≤ room.players.length
      · rw [if_pos hfull]
        refine ⟨?_, ?_, ?_⟩
        · constructor
          · intro h
            exact absurd h (by simp)
          · intro hf
            rw [hanyf] at hf
            cases hf
        · exact ⟨fun _ => ⟨hanyf, hfull⟩, fun _ => rfl⟩
        · intro _ hlt
          exact absurd hfull (not_le.mpr hlt)
      · rw [if_neg hfull]
        refine ⟨?_, ?_, ?_⟩
        · constructor
          · intro h
            exact absurd h (by simp)
          · intro hf
            rw [hanyf] at hf
            cases hf
        · constructor
          · intro h
            exact absurd h (by simp)
          · rintro ⟨-, h20⟩
            exact absurd h20 hfull
        · intro _ _
          exact ⟨_, rfl⟩

/-- C6 counterexample: a host creates a room (phase `lobby`) and immediately
sends `game:end`, leaving a `finished` room whose player was never saved as a
participant; that connection's re-join fails with `AlreadyInRoom`, not
`GameInProgress`, refuting "fails with GameInProgress for every other
session". -/
theorem claim_C6_counterexample :
    Reachable stateC6 ∧
    (getRoom 1000 stateC6).map (fun r => r.phase) = some RoomPhase.finished ∧
    isGameParticipant 1000 100 stateC6 = false ∧
    (joinRoom 1000 0 100 stateC6).2 = .alreadyInRoom ∧
    JoinResult.alreadyInRoom ≠ JoinResult.gameInProgress :=
  ⟨⟨trC6, rfl⟩, by decide, by decide, by decide, by decide⟩

/-- C6 witness: socket 5 with unrecorded session 777 cannot join the playing
room and is refused with `GameInProgress`. -/
theorem claim_C6_witness :
    (joinRoom 1000 5 777 exState).2 = .gameInProgress :=
  ((claim_C6 exState 1000 5 777 exRoom rfl).1 (by decide)).2.2 (by decide) (by decide)

theorem leaveRoom_saves (socketId code : Nat) (s : ServerState) (room : RoomState)
    (p : Player) (sess : Nat)
    (h1 : alookup socketId s.socketToRoom = some code)
    (h2 : alookup code s.rooms = some room)
    (h3 : room.phase ≠ RoomPhase.lobby)
    (h4 : room.players.find? (fun q => q.id == socketId) = some p)
    (h5 : alookup socketId s.socketToSession = some sess) :
    (alookup code ((leaveRoom socketId s).1).playerState).bind (alookup sess) =
      some { score := p.score, handicapSeconds := p.handicapSeconds } ∧
    ((leaveRoom socketId s).1).roomHostSession = s.roomHostSession := by
  have hsn := saveNickname_fields code sess p.nickname s
  have hsd1 := scheduleDeletion_fields code
  unfold leaveRoom
  rw [h1]
  dsimp only
  rw [h2]
  dsimp only
  rw [h4, h5]
  dsimp only
  rw [if_pos h3]
  dsimp only
  rw [hsn.2.1, hsn.2.2.1]
  constructor
  · split
    · simp [(hsd1 _).2.1, alookup_aset_self]
    · split
      · split
        · simp [alookup_aset_self]
        · simp [(hsd1 _).2.1, alookup_aset_self]
      · simp [alookup_aset_self]
  · split
    · simp [(hsd1 _).2.2.1]
    · split
      · split
        · rfl
        · simp [(hsd1 _).2.2.1]
      · rfl

/-- C8: a player who leaves a non-`lobby` room and whose session then
immediately rejoins the still-existing room gets back exactly the score and
handicap held at departure, and when that session is the room's recorded host
session and the room is `paused` at rejoin time, the rejoin flips the phase
back to `playing`. -/
theorem claim_C8 (s : ServerState) (code socketId socketId2 sess : Nat)
    (room : RoomState) (p : Player)
    (h1 : alookup socketId s.socketToRoom = some code)
    (h2 : alookup code s.rooms = some room)
    (h3 : room.phase ≠ RoomPhase.lobby)
    (h4 : room.players.find? (fun q => q.id == socketId) = some p)
    (h5 : alookup socketId s.socketToSession = some sess) :
    (∀ room2, (joinRoom code socketId2 sess ((leaveRoom socketId s).1)).2 = .ok room2 →
      ∃ q, room2.players.getLast? = some q ∧ (q : Player).id = socketId2 ∧
        q.score = p.score ∧ q.handicapSeconds = p.handicapSeconds) ∧
    (alookup code s.roomHostSession = some sess →
      (∀ roomMid, alookup code ((leaveRoom socketId s).1).rooms = some roomMid →
        roomMid.phase = RoomPhase.paused) →
      ∀ room2, (joinRoom code socketId2 sess ((leaveRoom socketId s).1)).2 = .ok room2 →
        room2.phase = RoomPhase.playing) := by
  obtain ⟨hsaved, hhost⟩ := leaveRoom_saves socketId code s room p sess h1 h2 h3 h4 h5
  have hcf := cancelScheduledDeletion_fields code ((leaveRoom socketId s).1)
  have haf := assignNickname_fields code sess ((cancelScheduledDeletion code
    ((leaveRoom socketId s).1)).1)
  unfold joinRoom
  cases hlook : alookup code ((leaveRoom socketId s).1).rooms with
  | none =>
    exact ⟨fun room2 h => absurd h (by simp), fun _ _ room2 h => absurd h (by simp)⟩
  | some roomMid =>
    dsimp only
    split
    · exact ⟨fun room2 h => absurd h (by simp), fun _ _ room2 h => absurd h (by simp)⟩
    · split
      · exact ⟨fun room2 h => absurd h (by simp), fun _ _ room2 h => absurd h (by simp)⟩
      · split
        · exact ⟨fun room2 h => absurd h (by simp), fun _ _ room2 h => absurd h (by simp)⟩
        · rw [hcf.2.2.1, hsaved]
          dsimp only
          constructor
          · intro room2 hok
            injection hok with he
            subst he
            exact ⟨_, getLast?_append_singleton _ _, rfl, rfl, rfl⟩
          · intro hhs hpause room2 hok
            have hmid := hpause roomMid rfl
            have hir : decide (alookup code ((cancelScheduledDeletion code
                ((leaveRoom socketId s).1)).1).roomHostSession = some sess) = true := by
              rw [hcf.2.2.2.1, hhost, hhs]
              exact decide_eq_true rfl
            injection hok with he
            subst he
            rw [if_pos ?hcond]
            case hcond =>
              rw [hir]
              simp [hmid]

/-! ## Invariant machinery for the reachable-state claims -/

theorem playersSim_refl (l : List Player) : PlayersSim l l :=
  fun p hp => ⟨p, hp, rfl, rfl⟩

theorem playersSim_map (f : Player → Player)
    (hf : ∀ p, (f p).id = p.id ∧ (f p).isHost = p.isHost) (l : List Player) :
    PlayersSim l (l.map f) := by
  intro p hp
  rcases List.mem_map.mp hp with ⟨q, hq, rfl⟩
  exact ⟨q, hq, (hf q).1, (hf q).2⟩

theorem playersSim_filter (pr : Player → Bool) (l : List Player) :
    PlayersSim l (l.filter pr) :=
  fun p hp => ⟨p, List.mem_of_mem_filter hp, rfl, rfl⟩

theorem playersSim_mapFirst (pr : Player → Bool) (f : Player → Player)
    (hf : ∀ p, (f p).id = p.id ∧ (f p).isHost = p.isHost) (l : List Player) :
    PlayersSim l (mapFirst pr f l) := by
  intro p hp
  rcases mem_mapFirst hp with h | ⟨q, hq, rfl⟩
  · exact ⟨p, h, rfl, rfl⟩
  · exact ⟨q, hq, (hf q).1, (hf q).2⟩

/-- The four state components the registry invariants read. -/
def invView (s : ServerState) :
    List (Nat × RoomState) × List (Nat × Nat) × List (Nat × Nat) × List (Nat × Nat) :=
  (s.rooms, s.roomHostSession, s.sessionLog, s.socketToSession)

theorem inv_of_fields {s s2 : ServerState}
    (hr : s2.rooms = s.rooms) (hhs : s2.roomHostSession = s.roomHostSession)
    (hlog : s2.sessionLog = s.sessionLog) (hsts : s2.socketToSession = s.socketToSession)
    (hinv : Inv s) : Inv s2 := by
  obtain ⟨⟨hnd, hcr⟩, hhost, hsess⟩ := hinv
  refine ⟨⟨?_, ?_⟩, ?_, ?_⟩
  · rw [hr]; exact hnd
  · rw [hr]; exact hcr
  · intro cr hm
    rw [hr] at hm
    rw [hhs]
    obtain ⟨hs, hhs2, hp⟩ := hhost cr hm
    exact ⟨hs, hhs2, fun p hpm => by rw [hlog]; exact hp p hpm⟩
  · intro kv hm
    rw [hsts] at hm
    rw [hlog]
    exact hsess kv hm

theorem inv_of_view {s s2 : ServerState} (h : invView s2 = invView s) (hinv : Inv s) :
    Inv s2 := by
  simp only [invView, Prod.mk.injEq] at h
  exact inv_of_fields h.1 h.2.1 h.2.2.1 h.2.2.2 hinv

/-- Replacing a room value at its own key with another room of the same code
whose players only changed in non-id, non-host-flag ways preserves `Inv`. -/
theorem inv_update_room {s s2 : ServerState} {code : Nat} {room room2 : RoomState}
    (hlook : alookup code s.rooms = some room)
    (hcode : room2.code = room.code)
    (hsim : PlayersSim room.players room2.players)
    (hr : s2.rooms = aset code room2 s.rooms)
    (hhs : s2.roomHostSession = s.roomHostSession)
    (hlog : s2.sessionLog = s.sessionLog)
    (hsts : ∀ kv ∈ s2.socketToSession, kv ∈ s.socketToSession)
    (hinv : Inv s) : Inv s2 := by
  obtain ⟨⟨hnd, hcr⟩, hhost, hsess⟩ := hinv
  have hmem := alookup_mem hlook
  obtain ⟨hc1, hc2, hc3⟩ := hcr (code, room) hmem
  refine ⟨⟨?_, ?_⟩, ?_, ?_⟩
  · rw [hr]
    exact nodup_akeys_aset hnd
  · intro cr hm
    rw [hr] at hm
    rcases mem_aset hm with rfl | hm2
    · exact ⟨by rw [hcode]; exact hc1, hc2, hc3⟩
    · exact hcr cr hm2
  · intro cr hm
    rw [hhs, hlog]
    rw [hr] at hm
    rcases mem_aset hm with rfl | hm2
    · obtain ⟨hs, hhs2, hp⟩ := hhost (code, room) hmem
      refine ⟨hs, hhs2, ?_⟩
      intro p2 hp2
      obtain ⟨q, hq, hid, hih⟩ := hsim p2 hp2
      obtain ⟨ps, hps, hiff⟩ := hp q hq
      exact ⟨ps, by rw [hid]; exact hps, by rw [hih]; exact hiff⟩
    · exact hhost cr hm2
  · intro kv hm
    rw [hlog]
    exact hsess kv (hsts kv hm)

theorem inv_initState : Inv initState := by
  refine ⟨⟨?_, ?_⟩, ?_, ?_⟩ <;> simp [initState, akeys, RoomsWF, HostWF, SessionWF]

theorem generateCode_spec {draws : List Nat} {s : ServerState} {code : Nat} :
    generateCode s draws = some code →
      alookup code s.rooms = none ∧ 1000 ≤ code ∧ code < 10000 := by
  induction draws with
  | nil => intro h; cases h
  | cons d rest ih =>
    intro h
    rw [generateCode] at h
    split at h
    · injection h with he
      subst he
      refine ⟨by assumption, by omega, ?_⟩
      have : d % 9000 < 9000 := Nat.mod_lt d (by omega)
      omega
    · exact ih h

theorem invView_cancelScheduledDeletion (c : Nat) (s : ServerState) :
    invView ((cancelScheduledDeletion c s).1) = invView s := by
  unfold cancelScheduledDeletion
  split <;> rfl

theorem invView_scheduleDeletion (c : Nat) (s : ServerState) :
    invView (scheduleDeletion c s) = invView s := by
  unfold scheduleDeletion
  rw [show invView { (cancelScheduledDeletion c s).1 with scheduledDeletions :=
    (cancelScheduledDeletion c s).1.scheduledDeletions ++ [c] } =
    invView ((cancelScheduledDeletion c s).1) from rfl]
  exact invView_cancelScheduledDeletion c s

theorem invView_saveNickname (c t : Nat) (nick : String) (s : ServerState) :
    invView (saveNickname c t nick s) = invView s := by
  unfold saveNickname
  split <;> rfl

theorem invView_assignNickname (c t : Nat) (s : ServerState) :
    invView ((assignNickname c t s).2) = invView s := by
  unfold assignNickname
  dsimp only
  split <;> rfl

theorem invView_cancelPendingAnswer (c k : Nat) (s : ServerState) :
    invView ((cancelPendingAnswer c k s).1) = invView s := by
  unfold cancelPendingAnswer
  split
  · rfl
  · split
    · rfl
    · dsimp only
      split <;> rfl

theorem invView_addPendingAnswer (c k : Nat) (p : PendingAnswer) (s : ServerState) :
    invView (addPendingAnswer c k p s) = invView s := by
  unfold addPendingAnswer
  exact invView_cancelPendingAnswer c k s

theorem invView_cancelAllPendingAnswers (c : Nat) (s : ServerState) :
    invView ((cancelAllPendingAnswers c s).1) = invView s := by
  unfold cancelAllPendingAnswers
  split <;> rfl

theorem invView_saveGameParticipants (c : Nat) (s : ServerState) :
    invView (saveGameParticipants c s) = invView s := by
  unfold saveGameParticipants
  split <;> rfl

theorem invView_setLobbySongs (c : Nat) (songs : List Song) (s : ServerState) :
    invView (setLobbySongs c songs s) = invView s := rfl

theorem invView_shuffleAndSetRoomSongs (perm : List Nat) (c : Nat) (s : ServerState) :
    invView ((shuffleAndSetRoomSongs perm c s).1) = invView s := by
  unfold shuffleAndSetRoomSongs
  split
  · rfl
  · dsimp only
    split <;> rfl

theorem view_rooms {a b : ServerState} (h : invView a = invView b) : a.rooms = b.rooms :=
  congrArg Prod.fst h

theorem view_hs {a b : ServerState} (h : invView a = invView b) :
    a.roomHostSession = b.roomHostSession :=
  congrArg (fun x => x.2.1) h

theorem view_log {a b : ServerState} (h : invView a = invView b) :
    a.sessionLog = b.sessionLog :=
  congrArg (fun x => x.2.2.1) h

theorem view_sts {a b : ServerState} (h : invView a = invView b) :
    a.socketToSession = b.socketToSession :=
  congrArg (fun x => x.2.2.2) h

theorem startGame_view (room : RoomState) (s : ServerState) :
    invView (startGame room s).1 = invView s := by
  unfold startGame startRound
  exact invView_cancelAllPendingAnswers _ _

theorem startGame_code (room : RoomState) (s : ServerState) :
    (startGame room s).2.1.code = room.code := rfl

theorem startGame_sim (room : RoomState) (s : ServerState) :
    PlayersSim room.players (startGame room s).2.1.players := by
  show PlayersSim room.players (room.players.map _)
  apply playersSim_map
  intro p
  exact ⟨rfl, rfl⟩

theorem startRound_view (room : RoomState) (n : Nat) (s : ServerState) :
    invView (startRound room n s).1 = invView s := by
  unfold startRound
  exact invView_cancelAllPendingAnswers _ _

theorem startRound_code (room : RoomState) (n : Nat) (s : ServerState) :
    (startRound room n s).2.1.code = room.code := rfl

theorem startRound_sim (room : RoomState) (n : Nat) (s : ServerState) :
    PlayersSim room.players (startRound room n s).2.1.players :=
  playersSim_refl _

theorem endGame_view (room : RoomState) (s : ServerState) :
    invView (endGame room s).1 = invView s := by
  unfold endGame
  exact invView_cancelAllPendingAnswers _ _

theorem endGame_code (room : RoomState) (s : ServerState) :
    (endGame room s).2.code = room.code := rfl

theorem endGame_sim (room : RoomState) (s : ServerState) :
    PlayersSim room.players (endGame room s).2.players :=
  playersSim_refl _

theorem resetToLobby_view (perm : List Nat) (room : RoomState) (s : ServerState) :
    invView (resetToLobby perm room s).1 = invView s := by
  unfold resetToLobby
  rw [invView_shuffleAndSetRoomSongs]
  exact invView_cancelAllPendingAnswers _ _

theorem resetToLobby_code (perm : List Nat) (room : RoomState) (s : ServerState) :
    (resetToLobby perm room s).2.code = room.code := rfl

theorem resetToLobby_sim (perm : List Nat) (room : RoomState) (s : ServerState) :
    PlayersSim room.players (resetToLobby perm room s).2.players := by
  show PlayersSim room.players (room.players.map _)
  apply playersSim_map
  intro p
  exact ⟨rfl, rfl⟩

theorem extendDuration_code (room : RoomState) : (extendDuration room).1.code = room.code := by
  unfold extendDuration
  split
  · rfl
  · rfl

theorem extendDuration_sim (room : RoomState) :
    PlayersSim room.players (extendDuration room).1.players := by
  unfold extendDuration
  split
  · exact playersSim_refl _
  · exact playersSim_refl _

theorem submitAnswer_code (room : RoomState) (k : Nat) (a b : String) (s : ServerState) :
    (submitAnswer room k a b s).1.code = room.code := by
  unfold submitAnswer
  split
  · rfl
  · dsimp only
    split
    · rfl
    · split
      · rfl
      · split
        · rfl
        · split
          · rfl
          · rfl

theorem submitAnswer_sim (room : RoomState) (k : Nat) (a b : String) (s : ServerState) :
    PlayersSim room.players (submitAnswer room k a b s).1.players := by
  unfold submitAnswer
  split
  · exact playersSim_refl _
  · dsimp only
    split
    · exact playersSim_refl _
    · split
      · exact playersSim_refl _
      · split
        · exact playersSim_refl _
        · split
          · show PlayersSim room.players (mapFirst _ _ room.players)
            apply playersSim_mapFirst
            intro p
            exact ⟨rfl, rfl⟩
          · exact playersSim_refl _

/-- C9: every host-only action (start game, play, extend, close answers,
advance round, end game, reset to lobby, settings update, lobby song list
update) requested by a connection that is not flagged host in its room's
player list leaves the entire server state unchanged and emits no event. -/
theorem claim_C9 (s : ServerState) (socketId : Nat) (songs : List Song)
    (patch : SettingsPatch) (perm : List Nat)
    (hnothost : ∀ room, getRoomBySocket socketId s = some room →
      isHost socketId room = false) :
    ∀ op ∈ [Op.gameStart socketId songs, Op.gamePlay socketId, Op.gameExtend socketId,
        Op.gameCloseAnswers socketId, Op.gameNext socketId, Op.gameEnd socketId,
        Op.backToLobby socketId perm, Op.roomSettings socketId patch,
        Op.lobbySongsSet socketId songs],
      step op s = (s, []) := by
  have hdec : ∀ code room, alookup socketId s.socketToRoom = some code →
      alookup code s.rooms = some room → isHost socketId room = false := by
    intro code room hc hr
    exact hnothost room (by simp [getRoomBySocket, hc, hr])
  intro op hop
  simp only [List.mem_cons, List.not_mem_nil, or_false] at hop
  rcases hop with rfl | rfl | rfl | rfl | rfl | rfl | rfl | rfl | rfl
  · show onGameStart socketId songs s = (s, [])
    unfold onGameStart
    cases hc : alookup socketId s.socketToRoom with
    | none => rfl
    | some code =>
      dsimp only
      cases hr : alookup code s.rooms with
      | none => rfl
      | some room =>
        dsimp only
        rw [if_pos (hdec code room hc hr)]
  · show onGamePlay socketId s = (s, [])
    unfold onGamePlay
    cases hg : getRoomBySocket socketId s with
    | none => rfl
    | some room =>
      dsimp only
      rw [if_pos (hnothost room hg)]
  · show onGameExtend socketId s = (s, [])
    unfold onGameExtend
    cases hc : alookup socketId s.socketToRoom with
    | none => rfl
    | some code =>
      dsimp only
      cases hr : alookup code s.rooms with
      | none => rfl
      | some room =>
        dsimp only
        rw [if_pos (hdec code room hc hr)]
  · show onGameCloseAnswers socketId s = (s, [])
    unfold onGameCloseAnswers
    cases hg : getRoomBySocket socketId s with
    | none => rfl
    | some room =>
      dsimp only
      rw [if_pos (hnothost room hg)]
  · show onGameNext socketId s = (s, [])
    unfold onGameNext
    cases hc : alookup socketId s.socketToRoom with
    | none => rfl
    | some code =>
      dsimp only
      cases hr : alookup code s.rooms with
      | none => rfl
      | some room =>
        dsimp only
        rw [if_pos (hdec code room hc hr)]
  · show onGameEnd socketId s = (s, [])
    unfold onGameEnd
    cases hc : alookup socketId s.socketToRoom with
    | none => rfl
    | some code =>
      dsimp only
      cases hr : alookup code s.rooms with
      | none => rfl
      | some room =>
        dsimp only
        rw [if_pos (hdec code room hc hr)]
  · show onBackToLobby socketId perm s = (s, [])
    unfold onBackToLobby
    cases hc : alookup socketId s.socketToRoom with
    | none => rfl
    | some code =>
      dsimp only
      cases hr : alookup code s.rooms with
      | none => rfl
      | some room =>
        dsimp only
        rw [if_pos (hdec code room hc hr)]
  · show onRoomSettings socketId patch s = (s, [])
    unfold onRoomSettings
    cases hg : getRoomBySocket socketId s with
    | none => rfl
    | some room =>
      dsimp only
      rw [if_pos (hnothost room hg)]
  · show onLobbySongs socketId songs s = (s, [])
    unfold onLobbySongs
    cases hg : getRoomBySocket socketId s with
    | none => rfl
    | some room =>
      dsimp only
      rw [if_pos (hnothost room hg)]

/-- C9 witness: socket 1 is a non-host player of the example room; its
`game:end` request is a complete no-op. -/
theorem claim_C9_witness : step (Op.gameEnd 1) exState = (exState, []) :=
  claim_C9 exState 1 [] ⟨none, none, none, none, none⟩ []
    (fun room hg => by
      simp [getRoomBySocket, exState, alookup, initState] at hg
      subst hg
      decide)
    (Op.gameEnd 1) (by simp)

/-- C8 witness: the host (socket 1, session 101, score 7, handicap 3) leaves
the playing 2-player room, pausing it; an immediate rejoin by session 101 on a
fresh socket restores score and handicap and resumes `playing`. -/
theorem claim_C8_witness :
    (∃ q, ∀ room2, (joinRoom 1000 9 101 ((leaveRoom 1 sC8).1)).2 = .ok room2 →
      room2.players.getLast? = some q ∧ (q : Player).score = 7 ∧ q.handicapSeconds = 3) ∧
    (∀ room2, (joinRoom 1000 9 101 ((leaveRoom 1 sC8).1)).2 = .ok room2 →
      room2.phase = RoomPhase.playing) := by
  have h := claim_C8 sC8 1000 1 9 101 roomC8 pC8host rfl rfl (by decide) (by decide) rfl
  constructor
  · cases hok : (joinRoom 1000 9 101 ((leaveRoom 1 sC8).1)).2 with
    | ok room2 =>
      obtain ⟨q, hq1, _, hq3, hq4⟩ := h.1 room2 hok
      refine ⟨q, fun room2x hokx => ?_⟩
      injection hokx with he
      subst he
      exact ⟨hq1, by rw [hq3]; decide, by rw [hq4]; decide⟩
    | notFound => exact ⟨pC8host, fun r hx => absurd hx (by simp)⟩
    | alreadyInRoom => exact ⟨pC8host, fun r hx => absurd hx (by simp)⟩
    | gameInProgress => exact ⟨pC8host, fun r hx => absurd hx (by simp)⟩
    | roomFull => exact ⟨pC8host, fun r hx => absurd hx (by simp)⟩
  · refine h.2 (by decide) ?_
    intro roomMid hm
    have hph : (alookup 1000 ((leaveRoom 1 sC8).1).rooms).map (fun r => r.phase) =
        some RoomPhase.paused := by decide
    rw [hm] at hph
    simpa using hph

theorem inv_onGamePlay (k : Nat) (s : ServerState) (h : Inv s) : Inv (onGamePlay k s).1 := by
  unfold onGamePlay
  split
  · exact h
  · split
    · exact h
    · split
      · exact h
      · split
        · exact h
        · exact h

theorem inv_onGameAnswer (k : Nat) (a b : String) (s : ServerState) (h : Inv s) :
    Inv (onGameAnswer k a b s).1 := by
  unfold onGameAnswer
  split
  · exact h
  · split
    · exact h
    · split
      · exact h
      · split
        · exact h
        · exact inv_of_view (invView_addPendingAnswer _ _ _ _) h

theorem inv_onGameCloseAnswers (k : Nat) (s : ServerState) (h : Inv s) :
    Inv (onGameCloseAnswers k s).1 := by
  unfold onGameCloseAnswers
  split
  · exact h
  · split
    · exact h
    · split
      · exact h
      · split
        · exact inv_of_view (invView_cancelAllPendingAnswers _ _) h
        · exact inv_of_view (invView_cancelAllPendingAnswers _ _) h

theorem inv_onLobbySongs (k : Nat) (songs : List Song) (s : ServerState) (h : Inv s) :
    Inv (onLobbySongs k songs s).1 := by
  unfold onLobbySongs
  split
  · exact h
  · split
    · exact h
    · split
      · exact h
      · exact inv_of_view (invView_setLobbySongs _ _ _) h

theorem inv_onRoomSettings (k : Nat) (patch : SettingsPatch) (s : ServerState) (h : Inv s) :
    Inv (onRoomSettings k patch s).1 := by
  unfold onRoomSettings
  split
  · exact h
  · split
    · exact h
    · split
      · next s1 room2 hg =>
        unfold updateSettings at hg
        cases hlook : alookup _ s.rooms with
        | none =>
          rw [hlook] at hg
          simp at hg
        | some room0 =>
          rw [hlook] at hg
          dsimp only at hg
          injection hg with h1 h2
          injection h2 with h3
          subst h1
          subst h3
          apply inv_update_room (s := s) hlook ?hcode ?hsim ?hr ?hhs ?hlog ?hsts h
          case hr => rfl
          case hcode => rfl
          case hsim => exact playersSim_refl _
          case hhs => rfl
          case hlog => rfl
          case hsts => intro kv hm; exact hm
      · next s1 hg =>
        unfold updateSettings at hg
        cases hlook : alookup _ s.rooms with
        | none =>
          rw [hlook] at hg
          injection hg with h1 h2
          rw [← h1]
          exact h
        | some room0 =>
          rw [hlook] at hg
          dsimp only at hg
          injection hg with h1 h2
          cases h2

theorem inv_onGameExtend (k : Nat) (s : ServerState) (h : Inv s) :
    Inv (onGameExtend k s).1 := by
  unfold onGameExtend
  cases hc : alookup k s.socketToRoom with
  | none => exact h
  | some code =>
    dsimp only
    cases hlook : alookup code s.rooms with
    | none => exact h
    | some room =>
      dsimp only
      split
      · exact h
      · split
        · exact h
        · have hu : Inv { s with rooms := aset code (extendDuration room).1 s.rooms } := by
            apply inv_update_room (s := s) hlook ?hcode ?hsim ?hr ?hhs ?hlog ?hsts h
            case hr => rfl
            case hcode => exact extendDuration_code _
            case hsim => exact extendDuration_sim _
            case hhs => rfl
            case hlog => rfl
            case hsts => intro kv hm; exact hm
          split
          · exact hu
          · exact hu

theorem inv_onGameStart (k : Nat) (songs : List Song) (s : ServerState) (h : Inv s) :
    Inv (onGameStart k songs s).1 := by
  unfold onGameStart
  cases hc : alookup k s.socketToRoom with
  | none => exact h
  | some code =>
    dsimp only
    cases hlook : alookup code s.rooms with
    | none => exact h
    | some room =>
      dsimp only
      split
      · exact h
      · have hv2 : invView (startGame room (saveGameParticipants room.code s)).1 =
            invView s := by
          rw [startGame_view]
          exact invView_saveGameParticipants _ _
        apply inv_update_room (s := s) hlook ?hcode ?hsim ?hr ?hhs ?hlog ?hsts h
        case hr =>
          show aset code ((startGame room (saveGameParticipants room.code s)).2.1)
            ((startGame room (saveGameParticipants room.code s)).1.rooms) = _
          rw [view_rooms hv2]
        case hcode => exact startGame_code _ _
        case hsim => exact startGame_sim _ _
        case hhs =>
          show (startGame room (saveGameParticipants room.code s)).1.roomHostSession = _
          exact view_hs hv2
        case hlog =>
          show (startGame room (saveGameParticipants room.code s)).1.sessionLog = _
          exact view_log hv2
        case hsts =>
          intro kv hm
          have hm2 : kv ∈ (startGame room
            (saveGameParticipants room.code s)).1.socketToSession := hm
          rw [view_sts hv2] at hm2
          exact hm2

theorem inv_onGameNext (k : Nat) (s : ServerState) (h : Inv s) : Inv (onGameNext k s).1 := by
  unfold onGameNext
  cases hc : alookup k s.socketToRoom with
  | none => exact h
  | some code =>
    dsimp only
    cases hlook : alookup code s.rooms with
    | none => exact h
    | some room =>
      dsimp only
      split
      · exact h
      · cases hround : room.round with
        | none => exact h
        | some round0 =>
          dsimp only
          split
          · have hv2 : invView (startRound room (round0.roundNumber + 1) s).1 = invView s :=
              startRound_view _ _ _
            apply inv_update_room (s := s) hlook ?hcode ?hsim ?hr ?hhs ?hlog ?hsts h
            case hr =>
              show aset code ((startRound room (round0.roundNumber + 1) s).2.1)
                ((startRound room (round0.roundNumber + 1) s).1.rooms) = _
              rw [view_rooms hv2]
            case hcode => exact startRound_code _ _ _
            case hsim => exact startRound_sim _ _ _
            case hhs =>
              show (startRound room (round0.roundNumber + 1) s).1.roomHostSession = _
              exact view_hs hv2
            case hlog =>
              show (startRound room (round0.roundNumber + 1) s).1.sessionLog = _
              exact view_log hv2
            case hsts =>
              intro kv hm
              have hm2 : kv ∈ (startRound room
                (round0.roundNumber + 1) s).1.socketToSession := hm
              rw [view_sts hv2] at hm2
              exact hm2
          · have hv2 : invView (endGame room s).1 = invView s := endGame_view _ _
            apply inv_update_room (s := s) hlook ?hcode ?hsim ?hr ?hhs ?hlog ?hsts h
            case hr =>
              show aset code ((endGame room s).2) ((endGame room s).1.rooms) = _
              rw [view_rooms hv2]
            case hcode => exact endGame_code _ _
            case hsim => exact endGame_sim _ _
            case hhs =>
              show (endGame room s).1.roomHostSession = _
              exact view_hs hv2
            case hlog =>
              show (endGame room s).1.sessionLog = _
              exact view_log hv2
            case hsts =>
              intro kv hm
              have hm2 : kv ∈ (endGame room s).1.socketToSession := hm
              rw [view_sts hv2] at hm2
              exact hm2

theorem inv_onGameEnd (k : Nat) (s : ServerState) (h : Inv s) : Inv (onGameEnd k s).1 := by
  unfold onGameEnd
  cases hc : alookup k s.socketToRoom with
  | none => exact h
  | some code =>
    dsimp only
    cases hlook : alookup code s.rooms with
    | none => exact h
    | some room =>
      dsimp only
      split
      · exact h
      · have hv2 : invView (endGame room s).1 = invView s := endGame_view _ _
        apply inv_update_room (s := s) hlook ?hcode ?hsim ?hr ?hhs ?hlog ?hsts h
        case hr =>
          show aset code ((endGame room s).2) ((endGame room s).1.rooms) = _
          rw [view_rooms hv2]
        case hcode => exact endGame_code _ _
        case hsim => exact endGame_sim _ _
        case hhs =>
          show (endGame room s).1.roomHostSession = _
          exact view_hs hv2
        case hlog =>
          show (endGame room s).1.sessionLog = _
          exact view_log hv2
        case hsts =>
          intro kv hm
          have hm2 : kv ∈ (endGame room s).1.socketToSession := hm
          rw [view_sts hv2] at hm2
          exact hm2

theorem inv_onBackToLobby (k : Nat) (perm : List Nat) (s : ServerState) (h : Inv s) :
    Inv (onBackToLobby k perm s).1 := by
  unfold onBackToLobby
  cases hc : alookup k s.socketToRoom with
  | none => exact h
  | some code =>
    dsimp only
    cases hlook : alookup code s.rooms with
    | none => exact h
    | some room =>
      dsimp only
      split
      · exact h
      · have hv2 : invView (resetToLobby perm room s).1 = invView s := resetToLobby_view _ _ _
        apply inv_update_room (s := s) hlook ?hcode ?hsim ?hr ?hhs ?hlog ?hsts h
        case hr =>
          show aset code ((resetToLobby perm room s).2) ((resetToLobby perm room s).1.rooms) = _
          rw [view_rooms hv2]
        case hcode => exact resetToLobby_code _ _ _
        case hsim => exact resetToLobby_sim _ _ _
        case hhs =>
          show (resetToLobby perm room s).1.roomHostSession = _
          exact view_hs hv2
        case hlog =>
          show (resetToLobby perm room s).1.sessionLog = _
          exact view_log hv2
        case hsts =>
          intro kv hm
          have hm2 : kv ∈ (resetToLobby perm room s).1.socketToSession := hm
          rw [view_sts hv2] at hm2
          exact hm2

theorem inv_deleteRoom (code : Nat) (s : ServerState) (h : Inv s) :
    Inv (deleteRoom code s) := by
  have h1 : Inv ((cancelScheduledDeletion code s).1) :=
    inv_of_view (invView_cancelScheduledDeletion _ _) h
  obtain ⟨⟨hnd, hcr⟩, hhost, hsess⟩ := h1
  unfold deleteRoom
  refine ⟨⟨?_, ?_⟩, ?_, ?_⟩
  · show (akeys (aerase code ((cancelScheduledDeletion code s).1).rooms)).Nodup
    exact nodup_akeys_aerase hnd
  · intro cr hm
    have hm2 : cr ∈ aerase code ((cancelScheduledDeletion code s).1).rooms := hm
    exact hcr cr (mem_aerase.mp hm2).1
  · intro cr hm
    have hm2 : cr ∈ aerase code ((cancelScheduledDeletion code s).1).rooms := hm
    obtain ⟨hmem, hne⟩ := mem_aerase.mp hm2
    obtain ⟨hs, hhs2, hp⟩ := hhost cr hmem
    refine ⟨hs, ?_, ?_⟩
    · show alookup cr.1
        (aerase code ((cancelScheduledDeletion code s).1).roomHostSession) = some hs
      rw [alookup_aerase_ne _ hne]
      exact hhs2
    · intro p hpm
      exact hp p hpm
  · intro kv hm
    have hm2 : kv ∈ ((cancelScheduledDeletion code s).1).socketToSession := hm
    exact hsess kv hm2

theorem inv_onDeletionExpired (code : Nat) (s : ServerState) (h : Inv s) :
    Inv (onDeletionExpired code s).1 := by
  unfold onDeletionExpired
  split
  · exact inv_deleteRoom _ _ (inv_of_view rfl h)
  · exact h

theorem inv_onConnect (k t : Nat) (s : ServerState) (h : Inv s) : Inv (onConnect k t s).1 := by
  unfold onConnect
  split
  · exact h
  · next hfresh =>
    obtain ⟨⟨hnd, hcr⟩, hhost, hsess⟩ := h
    have hnone : alookup k s.sessionLog = none := by
      cases hh : alookup k s.sessionLog with
      | none => rfl
      | some v => rw [hh] at hfresh; simp at hfresh
    refine ⟨⟨hnd, hcr⟩, ?_, ?_⟩
    · intro cr hm
      obtain ⟨hs, hhs2, hp⟩ := hhost cr hm
      refine ⟨hs, hhs2, fun p hpm => ?_⟩
      obtain ⟨ps, hps, hiff⟩ := hp p hpm
      exact ⟨ps, alookup_append_some hps, hiff⟩
    · intro kv hm
      rcases mem_aset hm with rfl | hm2
      · rw [alookup_append_none hnone]
        simp [alookup]
      · exact alookup_append_some (hsess kv hm2)

theorem inv_scheduleDeletion (c : Nat) (s : ServerState) (h : Inv s) :
    Inv (scheduleDeletion c s) :=
  inv_of_view (invView_scheduleDeletion _ _) h

/-- The common tail of `leaveRoom`: the leaving socket's bindings are erased
and the room value is replaced by one with benignly-updated players. -/
theorem inv_leave_tail {k code : Nat} {room roomX : RoomState} {s1 s : ServerState}
    (hlook : alookup code s.rooms = some room)
    (hcode : roomX.code = room.code)
    (hsim : PlayersSim room.players roomX.players)
    (hview : invView s1 = invView s)
    (h : Inv s) :
    Inv { s1 with
        socketToRoom := aerase k s1.socketToRoom,
        socketToSession := aerase k s1.socketToSession,
        rooms := aset code roomX s1.rooms } := by
  apply inv_update_room hlook hcode hsim ?hr ?hhs ?hlog ?hsts h
  case hr =>
    show aset code roomX s1.rooms = _
    rw [view_rooms hview]
  case hhs =>
    show s1.roomHostSession = _
    exact view_hs hview
  case hlog =>
    show s1.sessionLog = _
    exact view_log hview
  case hsts =>
    intro kv hm
    have hm2 : kv ∈ aerase k s1.socketToSession := hm
    have hm3 : kv ∈ s1.socketToSession := (mem_aerase.mp hm2).1
    rw [view_sts hview] at hm3
    exact hm3

theorem inv_leaveRoom (k : Nat) (s : ServerState) (h : Inv s) : Inv (leaveRoom k s).1 := by
  unfold leaveRoom
  cases hc : alookup k s.socketToRoom with
  | none => exact h
  | some code =>
    dsimp only
    cases hlook : alookup code s.rooms with
    | none => exact h
    | some room =>
      dsimp only
      cases hfind : room.players.find? (fun p => p.id == k) with
      | none =>
        cases hsess : alookup k s.socketToSession with
        | none =>
          dsimp only
          split
          · refine inv_of_view (invView_scheduleDeletion _ _) ?_
            apply inv_leave_tail hlook ?hcode ?hsim ?hview h
            case hcode => rfl
            case hsim => exact playersSim_filter _ _
            case hview => rfl
          · split
            · split
              · apply inv_leave_tail hlook ?hcode2 ?hsim2 ?hview2 h
                case hcode2 => rfl
                case hsim2 => exact playersSim_filter _ _
                case hview2 => rfl
              · refine inv_of_view (invView_scheduleDeletion _ _) ?_
                apply inv_leave_tail hlook ?hcode3 ?hsim3 ?hview3 h
                case hcode3 => rfl
                case hsim3 => exact playersSim_filter _ _
                case hview3 => rfl
            · apply inv_leave_tail hlook ?hcode4 ?hsim4 ?hview4 h
              case hcode4 => rfl
              case hsim4 => exact playersSim_filter _ _
              case hview4 => rfl
        | some t =>
          dsimp only
          split
          · refine inv_of_view (invView_scheduleDeletion _ _) ?_
            apply inv_leave_tail hlook ?hcode ?hsim ?hview h
            case hcode => rfl
            case hsim => exact playersSim_filter _ _
            case hview => rfl
          · split
            · split
              · apply inv_leave_tail hlook ?hcode2 ?hsim2 ?hview2 h
                case hcode2 => rfl
                case hsim2 => exact playersSim_filter _ _
                case hview2 => rfl
              · refine inv_of_view (invView_scheduleDeletion _ _) ?_
                apply inv_leave_tail hlook ?hcode3 ?hsim3 ?hview3 h
                case hcode3 => rfl
                case hsim3 => exact playersSim_filter _ _
                case hview3 => rfl
            · apply inv_leave_tail hlook ?hcode4 ?hsim4 ?hview4 h
              case hcode4 => rfl
              case hsim4 => exact playersSim_filter _ _
              case hview4 => rfl
      | some player =>
        cases hsess : alookup k s.socketToSession with
        | none =>
          dsimp only
          split
          · refine inv_of_view (invView_scheduleDeletion _ _) ?_
            apply inv_leave_tail hlook ?hcode ?hsim ?hview h
            case hcode => rfl
            case hsim => exact playersSim_filter _ _
            case hview => rfl
          · split
            · split
              · apply inv_leave_tail hlook ?hcode2 ?hsim2 ?hview2 h
                case hcode2 => rfl
                case hsim2 => exact playersSim_filter _ _
                case hview2 => rfl
              · refine inv_of_view (invView_scheduleDeletion _ _) ?_
                apply inv_leave_tail hlook ?hcode3 ?hsim3 ?hview3 h
                case hcode3 => rfl
                case hsim3 => exact playersSim_filter _ _
                case hview3 => rfl
            · apply inv_leave_tail hlook ?hcode4 ?hsim4 ?hview4 h
              case hcode4 => rfl
              case hsim4 => exact playersSim_filter _ _
              case hview4 => rfl
        | some t =>
          dsimp only
          split
          · refine inv_of_view (invView_scheduleDeletion _ _) ?_
            apply inv_leave_tail hlook ?hcode ?hsim ?hview h
            case hcode => rfl
            case hsim => exact playersSim_filter _ _
            case hview =>
              split
              · exact invView_saveNickname code t player.nickname s
              · exact invView_saveNickname code t player.nickname s
          · split
            · split
              · apply inv_leave_tail hlook ?hcode2 ?hsim2 ?hview2 h
                case hcode2 => rfl
                case hsim2 => exact playersSim_filter _ _
                case hview2 =>
                  split
                  · exact invView_saveNickname code t player.nickname s
                  · exact invView_saveNickname code t player.nickname s
              · refine inv_of_view (invView_scheduleDeletion _ _) ?_
                apply inv_leave_tail hlook ?hcode3 ?hsim3 ?hview3 h
                case hcode3 => rfl
                case hsim3 => exact playersSim_filter _ _
                case hview3 =>
                  split
                  · exact invView_saveNickname code t player.nickname s
                  · exact invView_saveNickname code t player.nickname s
            · apply inv_leave_tail hlook ?hcode4 ?hsim4 ?hview4 h
              case hcode4 => rfl
              case hsim4 => exact playersSim_filter _ _
              case hview4 =>
                split
                · exact invView_saveNickname code t player.nickname s
                · exact invView_saveNickname code t player.nickname s

theorem inv_onRoomLeave (k : Nat) (s : ServerState) (h : Inv s) : Inv (onRoomLeave k s).1 := by
  unfold onRoomLeave
  have h1 : Inv (leaveRoom k s).1 := inv_leaveRoom k s h
  cases hl : leaveRoom k s with
  | mk s1 r =>
    rw [hl] at h1
    cases r with
    | none => exact h1
    | some tup =>
      rcases tup with ⟨room, b1, b2⟩
      exact h1

theorem inv_onDisconnect (k : Nat) (s : ServerState) (h : Inv s) : Inv (onDisconnect k s).1 := by
  unfold onDisconnect
  dsimp only
  have h1 : Inv (match getRoomBySocket k s with
      | some room => (cancelPendingAnswer room.code k s).1
      | none => s) := by
    cases hg : getRoomBySocket k s with
    | none => exact h
    | some room => exact inv_of_view (invView_cancelPendingAnswer _ _ _) h
  generalize hgen : (match getRoomBySocket k s with
      | some room => (cancelPendingAnswer room.code k s).1
      | none => s) = s1 at h1 ⊢
  have h2 : Inv (leaveRoom k s1).1 := inv_leaveRoom k s1 h1
  cases hl : leaveRoom k s1 with
  | mk s2 r =>
    rw [hl] at h2
    cases r with
    | none => exact h2
    | some tup =>
      rcases tup with ⟨room, b1, b2⟩
      exact h2

theorem inv_setNickname (code k : Nat) (nick : String) (s : ServerState) (h : Inv s) :
    Inv (setNickname code k nick s).1 := by
  unfold setNickname
  cases hlook : alookup code s.rooms with
  | none => exact h
  | some room =>
    dsimp only
    cases hfind : room.players.find? (fun p => p.id == k) with
    | none => exact h
    | some p0 =>
      dsimp only
      split
      · exact h
      · have h1 : Inv
            { s with
                rooms := aset code
                    { room with
                        players := mapFirst (fun p => p.id == k)
                          (fun p => { p with nickname := nick }) room.players }
                    s.rooms } := by
          apply inv_update_room hlook ?hcode ?hsim ?hr ?hhs ?hlog ?hsts h
          case hr => rfl
          case hcode => rfl
          case hsim =>
            show PlayersSim room.players (mapFirst _ _ room.players)
            apply playersSim_mapFirst
            intro p
            exact ⟨rfl, rfl⟩
          case hhs => rfl
          case hlog => rfl
          case hsts => intro kv hm; exact hm
        dsimp only
        split
        · exact inv_of_view (invView_saveNickname _ _ _ _) h1
        · exact h1

theorem inv_onRoomNickname (k : Nat) (nick : String) (s : ServerState) (h : Inv s) :
    Inv (onRoomNickname k nick s).1 := by
  unfold onRoomNickname
  cases hg : getRoomBySocket k s with
  | none => exact h
  | some room =>
    dsimp only
    split
    · exact h
    · have h1 : Inv (setNickname room.code k nick.trim s).1 :=
        inv_setNickname room.code k nick.trim s h
      cases hsn : setNickname room.code k nick.trim s with
      | mk s1 res =>
        rw [hsn] at h1
        cases res with
        | error msg => exact h1
        | ok room2 => exact h1

theorem inv_setHandicap (code k : Nat) (secs : Int) (s : ServerState) (h : Inv s) :
    Inv (setHandicap code k secs s).1 := by
  unfold setHandicap
  cases hlook : alookup code s.rooms with
  | none => exact h
  | some room =>
    dsimp only
    split
    · exact h
    · cases hfind : room.players.find? (fun p => p.id == k) with
      | none => exact h
      | some p0 =>
        dsimp only
        split
        · exact h
        · apply inv_update_room hlook ?hcode ?hsim ?hr ?hhs ?hlog ?hsts h
          case hr => rfl
          case hcode => rfl
          case hsim =>
            show PlayersSim room.players (mapFirst _ _ room.players)
            apply playersSim_mapFirst
            intro p
            exact ⟨rfl, rfl⟩
          case hhs => rfl
          case hlog => rfl
          case hsts => intro kv hm; exact hm

theorem inv_onRoomHandicap (k : Nat) (secs : Int) (s : ServerState) (h : Inv s) :
    Inv (onRoomHandicap k secs s).1 := by
  unfold onRoomHandicap
  cases hg : getRoomBySocket k s with
  | none => exact h
  | some room =>
    dsimp only
    have h1 : Inv (setHandicap room.code k secs s).1 := inv_setHandicap room.code k secs s h
    cases hsh : setHandicap room.code k secs s with
    | mk s1 res =>
      rw [hsh] at h1
      cases res with
      | error msg => exact h1
      | ok room2 => exact h1

theorem inv_createRoom (draws : List Nat) (k t : Nat) (s : ServerState)
    (hks : alookup k s.sessionLog = some t) (h : Inv s) :
    Inv (createRoom draws k t s).1 := by
  unfold createRoom
  cases hg : generateCode s draws with
  | none => exact h
  | some code =>
    obtain ⟨hnone, hlo, hhi⟩ := generateCode_spec hg
    dsimp only
    have ha := assignNickname_fields code t
      { s with nextPlayerNumber := aset code 1 s.nextPlayerNumber }
    generalize hns : assignNickname code t
      { s with nextPlayerNumber := aset code 1 s.nextPlayerNumber } = ns
    rw [hns] at ha
    have har : ns.2.rooms = s.rooms := ha.1
    have hahs : ns.2.roomHostSession = s.roomHostSession := ha.2.2.2.1
    have hasts : ns.2.socketToSession = s.socketToSession := ha.2.2.2.2.2.1
    have halog : ns.2.sessionLog = s.sessionLog := ha.2.2.2.2.2.2.2
    obtain ⟨⟨hnd, hcr⟩, hhost, hsess⟩ := h
    refine ⟨⟨?_, ?_⟩, ?_, ?_⟩
    · show (akeys (aset code _ ns.2.rooms)).Nodup
      rw [har]
      exact nodup_akeys_aset hnd
    · intro cr hm
      rcases mem_aset hm with rfl | hm2
      · exact ⟨rfl, hlo, hhi⟩
      · rw [har] at hm2
        exact hcr cr hm2
    · intro cr hm
      rcases mem_aset hm with rfl | hm2
      · refine ⟨t, ?_, ?_⟩
        · show alookup code (aset code t ns.2.roomHostSession) = some t
          exact alookup_aset_self _ _ _
        · intro p hp
          have hp2 : p ∈
              [({ id := k,
                  nickname := ns.1,
                  score := 0,
                  isHost := true,
                  handicapSeconds := 0 } : Player)] := hp
          rw [List.mem_singleton] at hp2
          subst hp2
          refine ⟨t, ?_, ?_⟩
          · show alookup k ns.2.sessionLog = some t
            rw [halog]
            exact hks
          · simp
      · rw [har] at hm2
        have hne : cr.1 ≠ code := alookup_eq_none.mp hnone cr hm2
        obtain ⟨hs, hhs2, hp⟩ := hhost cr hm2
        refine ⟨hs, ?_, ?_⟩
        · show alookup cr.1 (aset code t ns.2.roomHostSession) = some hs
          rw [alookup_aset_ne _ _ hne, hahs]
          exact hhs2
        · intro p hpm
          obtain ⟨ps, hps, hiff⟩ := hp p hpm
          refine ⟨ps, ?_, hiff⟩
          show alookup p.id ns.2.sessionLog = some ps
          rw [halog]
          exact hps
    · intro kv hm
      have hm0 : kv ∈ aset k t ns.2.socketToSession := hm
      rcases mem_aset hm0 with rfl | hm3
      · show alookup k ns.2.sessionLog = some t
        rw [halog]
        exact hks
      · rw [hasts] at hm3
        show alookup kv.1 ns.2.sessionLog = some kv.2
        rw [halog]
        exact hsess kv hm3

theorem inv_onRoomCreate (k : Nat) (draws : List Nat) (s : ServerState) (h : Inv s) :
    Inv (onRoomCreate k draws s).1 := by
  unfold onRoomCreate
  cases hc : alookup k s.sessionLog with
  | none => exact h
  | some t =>
    dsimp only
    have h1 : Inv (createRoom draws k t s).1 := inv_createRoom draws k t s hc h
    cases hcr : createRoom draws k t s with
    | mk s1 r =>
      rw [hcr] at h1
      cases r with
      | none => exact h1
      | some room => exact h1

theorem inv_joinRoom (code k t : Nat) (s : ServerState)
    (hks : alookup k s.sessionLog = some t) (h : Inv s) :
    Inv (joinRoom code k t s).1 := by
  unfold joinRoom
  cases hlook : alookup code s.rooms with
  | none => exact h
  | some room =>
    dsimp only
    have h1 : Inv ((cancelScheduledDeletion code s).1) :=
      inv_of_view (invView_cancelScheduledDeletion _ _) h
    split
    · exact h1
    · split
      · exact h1
      · split
        · exact h1
        · have hcf := cancelScheduledDeletion_fields code s
          have ha := assignNickname_fields code t ((cancelScheduledDeletion code s).1)
          generalize hns : assignNickname code t ((cancelScheduledDeletion code s).1) = ns
          rw [hns] at ha
          have har : ns.2.rooms = s.rooms := ha.1.trans hcf.1
          have hahs : ns.2.roomHostSession = s.roomHostSession :=
            (ha.2.2.2.1).trans hcf.2.2.2.1
          have hasts : ns.2.socketToSession = s.socketToSession :=
            (ha.2.2.2.2.2.1).trans hcf.2.2.2.2.1
          have halog : ns.2.sessionLog = s.sessionLog :=
            (ha.2.2.2.2.2.2.2).trans hcf.2.2.2.2.2.2.2.2
          have hrhs1 : ((cancelScheduledDeletion code s).1).roomHostSession =
              s.roomHostSession := hcf.2.2.2.1
          obtain ⟨⟨hnd, hcr⟩, hhost, hsess⟩ := h
          have hmemroom := alookup_mem hlook
          obtain ⟨hcode0, hlo, hhi⟩ := hcr (code, room) hmemroom
          obtain ⟨hs0, hhs2, hp⟩ := hhost (code, room) hmemroom
          refine ⟨⟨?_, ?_⟩, ?_, ?_⟩
          · show (akeys (aset code _ ns.2.rooms)).Nodup
            rw [har]
            exact nodup_akeys_aset hnd
          · intro cr hm
            rcases mem_aset hm with rfl | hm2
            · exact ⟨hcode0, hlo, hhi⟩
            · rw [har] at hm2
              exact hcr cr hm2
          · intro cr hm
            rcases mem_aset hm with rfl | hm2
            · refine ⟨hs0, ?_, ?_⟩
              · show alookup code ns.2.roomHostSession = some hs0
                rw [hahs]
                exact hhs2
              · intro p hpm
                rcases List.mem_append.mp hpm with hin | hnew
                · obtain ⟨ps, hps, hiff⟩ := hp p hin
                  refine ⟨ps, ?_, hiff⟩
                  show alookup p.id ns.2.sessionLog = some ps
                  rw [halog]
                  exact hps
                · rw [List.mem_singleton] at hnew
                  subst hnew
                  refine ⟨t, ?_, ?_⟩
                  · show alookup k ns.2.sessionLog = some t
                    rw [halog]
                    exact hks
                  · show decide (alookup code
                        ((cancelScheduledDeletion code s).1).roomHostSession = some t) =
                        true ↔ t = hs0
                    rw [hrhs1, hhs2]
                    simp [eq_comm]
            · rw [har] at hm2
              obtain ⟨hs2, hhs2b, hpb⟩ := hhost cr hm2
              refine ⟨hs2, ?_, ?_⟩
              · show alookup cr.1 ns.2.roomHostSession = some hs2
                rw [hahs]
                exact hhs2b
              · intro p hpm
                obtain ⟨ps, hps, hiff⟩ := hpb p hpm
                refine ⟨ps, ?_, hiff⟩
                show alookup p.id ns.2.sessionLog = some ps
                rw [halog]
                exact hps
          · intro kv hm
            have hm0 : kv ∈ aset k t ns.2.socketToSession := hm
            rcases mem_aset hm0 with rfl | hm3
            · show alookup k ns.2.sessionLog = some t
              rw [halog]
              exact hks
            · rw [hasts] at hm3
              show alookup kv.1 ns.2.sessionLog = some kv.2
              rw [halog]
              exact hsess kv hm3

theorem inv_onRoomJoin (k code : Nat) (s : ServerState) (h : Inv s) :
    Inv (onRoomJoin k code s).1 := by
  unfold onRoomJoin
  cases hc : alookup k s.sessionLog with
  | none => exact h
  | some t =>
    dsimp only
    have h1 : Inv (joinRoom code k t s).1 := inv_joinRoom code k t s hc h
    cases hj : joinRoom code k t s with
    | mk s1 res =>
      rw [hj] at h1
      cases res with
      | ok room => exact h1
      | notFound => exact h1
      | alreadyInRoom => exact h1
      | gameInProgress => exact h1
      | roomFull => exact h1

theorem inv_answerTimerCallback (rc k : Nat) (a b : String) (n : Nat) (s : ServerState)
    (h : Inv s) : Inv (answerTimerCallback rc k a b n s).1 := by
  unfold answerTimerCallback
  have h1 : Inv ((cancelPendingAnswer rc k s).1) :=
    inv_of_view (invView_cancelPendingAnswer _ _ _) h
  dsimp only
  cases hc : alookup k ((cancelPendingAnswer rc k s).1).socketToRoom with
  | none => exact h1
  | some currentCode =>
    dsimp only
    cases hlook : alookup currentCode ((cancelPendingAnswer rc k s).1).rooms with
    | none => exact h1
    | some currentRoom =>
      dsimp only
      cases hround : currentRoom.round with
      | none => exact h1
      | some round =>
        dsimp only
        split
        · exact h1
        · cases hsub : submitAnswer currentRoom k a b ((cancelPendingAnswer rc k s).1) with
          | mk room2 res =>
            have hcode2 : room2.code = currentRoom.code := by
              have hx := submitAnswer_code currentRoom k a b ((cancelPendingAnswer rc k s).1)
              rw [hsub] at hx
              exact hx
            have hsim2 : PlayersSim currentRoom.players room2.players := by
              have hx := submitAnswer_sim currentRoom k a b ((cancelPendingAnswer rc k s).1)
              rw [hsub] at hx
              exact hx
            have h2 : Inv { (cancelPendingAnswer rc k s).1 with
                rooms := aset currentCode room2 ((cancelPendingAnswer rc k s).1).rooms } := by
              apply inv_update_room hlook hcode2 hsim2 ?hr ?hhs ?hlog ?hsts h1
              case hr => rfl
              case hhs => rfl
              case hlog => rfl
              case hsts => intro kv hm; exact hm
            cases res with
            | accepted points position asf =>
              dsimp only
              cases asf with
              | true => exact inv_of_view (invView_cancelAllPendingAnswers _ _) h2
              | false => exact h2
            | rejected reason =>
              dsimp only
              split
              · exact h2
              · exact h2

theorem inv_onPendingFire (rc k : Nat) (s : ServerState) (h : Inv s) :
    Inv (onPendingFire rc k s).1 := by
  unfold onPendingFire
  cases hp : (alookup rc s.pendingAnswers).bind (alookup k) with
  | none => exact h
  | some p =>
    exact inv_answerTimerCallback p.roomCode p.socketId p.songId p.songTitle p.roundNumber s h

/-- Every event-loop turn preserves the registry invariants. -/
theorem inv_step (op : Op) (s : ServerState) (h : Inv s) : Inv (step op s).1 := by
  cases op with
  | connect a b => exact inv_onConnect a b s h
  | roomCreate a d => exact inv_onRoomCreate a d s h
  | roomJoin a c => exact inv_onRoomJoin a c s h
  | roomLeave a => exact inv_onRoomLeave a s h
  | roomNickname a nick => exact inv_onRoomNickname a nick s h
  | roomHandicap a secs => exact inv_onRoomHandicap a secs s h
  | lobbySongsSet a songs => exact inv_onLobbySongs a songs s h
  | roomSettings a patch => exact inv_onRoomSettings a patch s h
  | gameStart a songs => exact inv_onGameStart a songs s h
  | gamePlay a => exact inv_onGamePlay a s h
  | gameAnswer a i ttl => exact inv_onGameAnswer a i ttl s h
  | gameExtend a => exact inv_onGameExtend a s h
  | gameCloseAnswers a => exact inv_onGameCloseAnswers a s h
  | gameNext a => exact inv_onGameNext a s h
  | gameEnd a => exact inv_onGameEnd a s h
  | backToLobby a perm => exact inv_onBackToLobby a perm s h
  | disconnect a => exact inv_onDisconnect a s h
  | pendingFire rc a => exact inv_onPendingFire rc a s h
  | deletionFire c => exact inv_onDeletionExpired c s h

theorem inv_runOps (l : List Op) (s : ServerState) (h : Inv s) : Inv (runOps l s) := by
  induction l generalizing s with
  | nil => exact h
  | cons op rest ih => exact ih (step op s).1 (inv_step op s h)

theorem inv_reachable {s : ServerState} (h : Reachable s) : Inv s := by
  obtain ⟨l, hl⟩ := h
  rw [← hl]
  exact inv_runOps l initState inv_initState

/-- C3 (corrected): a non-empty reachable room need not have exactly one
host-flagged player.  What holds instead: every live room records a host
session, and a player carries the host flag exactly when the session bound to
their socket at connect time equals that recorded host session — so a room can
have zero hosts (the host left while in `lobby`/`finished` and other players
remain during the deletion grace period) and the flag tracks the session, not
a per-room count. -/
theorem claim_C3 (s : ServerState) (cr : Nat × RoomState) (h : Reachable s)
    (hm : cr ∈ s.rooms) :
    ∃ hs, alookup cr.1 s.roomHostSession = some hs ∧
      ∀ p ∈ (cr.2 : RoomState).players, ∃ ps, alookup p.id s.sessionLog = some ps ∧
        (p.isHost = true ↔ ps = hs) :=
  (inv_reachable h).2.1 cr hm

/-- C3 counterexample: after the host leaves a lobby room that still has
another player, the room is reachable, non-empty, and has zero host-flagged
players — refuting the exactly-one-host claim. -/
theorem claim_C3_counterexample :
    Reachable stateC3 ∧
    (alookup 1000 stateC3.rooms).map (fun room =>
      (room.players.length, (room.players.filter (fun p => p.isHost)).length)) =
      some (1, 0) :=
  ⟨⟨trC3, rfl⟩, by decide⟩

/-- C3 witness: in the freshly created room the recorded host session governs
the sole player's host flag. -/
theorem claim_C3_witness :
    ∃ hs, alookup 1000 stateC3w.roomHostSession = some hs ∧
      ∀ p ∈ roomC3w.players, ∃ ps, alookup p.id stateC3w.sessionLog = some ps ∧
        (p.isHost = true ↔ ps = hs) :=
  claim_C3 stateC3w (1000, roomC3w) ⟨trC3w, rfl⟩ (by decide)

/-- C4: in every reachable state the codes of simultaneously live rooms are
pairwise distinct, and every room `createRoom` returns carries a code of
exactly four decimal digits (each digit below 10); nothing prevents reuse of a
code after deletion, since freshness is only checked against the live map. -/
theorem claim_C4 (s : ServerState) (draws : List Nat) (k t : Nat) (h : Reachable s) :
    s.rooms.Pairwise (fun a b => (a.2 : RoomState).code ≠ b.2.code) ∧
    ∀ room, (createRoom draws k t s).2 = some room →
      (Nat.digits 10 room.code).length = 4 ∧ ∀ d ∈ Nat.digits 10 room.code, d < 10 := by
  obtain ⟨⟨hnd, hcr⟩, -, -⟩ := inv_reachable h
  constructor
  · have hnd2 : s.rooms.Pairwise (fun a b => a.1 ≠ b.1) := by
      rw [akeys] at hnd
      exact List.pairwise_map.mp hnd
    refine hnd2.imp_of_mem ?_
    intro a b ha hb hne
    rw [(hcr a ha).1, (hcr b hb).1]
    exact hne
  · intro room hroom
    unfold createRoom at hroom
    cases hg : generateCode s draws with
    | none =>
      rw [hg] at hroom
      simp at hroom
    | some code =>
      obtain ⟨-, hlo, hhi⟩ := generateCode_spec hg
      rw [hg] at hroom
      dsimp only at hroom
      injection hroom with he
      subst he
      have e3 : (10 : Nat) ^ 3 = 1000 := by norm_num
      have e4 : (10 : Nat) ^ 4 = 10000 := by norm_num
      have hlog : Nat.log 10 code = 3 :=
        Nat.log_eq_of_pow_le_of_lt_pow (e3.symm ▸ hlo) (e4.symm ▸ hhi)
      have hlen : (Nat.digits 10 code).length = 4 := by
        rw [Nat.digits_len 10 code (by norm_num) (by omega), hlog]
      exact ⟨hlen, fun d hd => Nat.digits_lt_base (by norm_num) hd⟩

/-- C4 witness: the one-room creation state has pairwise-distinct codes, and a
further `createRoom` from it (draw 5 → code 1005) yields a four-digit code. -/
theorem claim_C4_witness :
    stateC3w.rooms.Pairwise (fun a b => (a.2 : RoomState).code ≠ b.2.code) ∧
    ∀ room, (createRoom [5] 1 101 stateC3w).2 = some room →
      (Nat.digits 10 room.code).length = 4 ∧ ∀ d ∈ Nat.digits 10 room.code, d < 10 :=
  claim_C4 stateC3w [5] 1 101 ⟨trC3w, rfl⟩

end NameThatTune
